import Mathlib

/-!
# Compliance scoring and gap analysis of the ESG dashboard

A shallow embedding of `analyzeCompliance` (src/src/components/ComplianceInsights.jsx,
lines 39-130) and of the properties the specification states about it, together with
the dashboard score (`Dashboard.jsx`, lines 91-112), the upload-status polling
(`FileUpload.jsx`, lines 134-192) and the view routing (`App.jsx`, lines 29-49).

Modelling conventions.
* JavaScript numbers that hold relevance scores are modelled by rationals (`ℚ`);
  counts and scores, which the code only ever builds from `length`, `size`, `*`, `+`
  and `Math.min` of integers, are natural numbers.
* `analyzeCompliance` reads the `+` and `/` of lines 63-64 as exact operations;
  `analyzeComplianceIn` takes the arithmetic as a parameter, and with
  `doubleArithmetic` (correctly rounded IEEE-754 double operations) it is the function
  as JavaScript evaluates it. Scores, gaps, recommendations, framework names and counts
  are the same for every arithmetic (`analyzeComplianceIn_agrees`,
  `coverageIn_projection`); totals, averages and statuses are stated over
  `analyzeComplianceIn` where rounding matters.
* An optional field is an `Option`; `none` stands for an absent (`undefined`/`null`)
  field.  The tests `if (doc.documentType)` and `fw.relevanceScore || 0.5` are
  JavaScript truthiness tests: the empty string and the number `0` are falsy.
* A JavaScript `Set` of strings is a duplicate-free list in insertion order, a `Map`
  is a list of key/value pairs in insertion order with unique keys.
-/

namespace ComplianceInsights

/-! ## Data model -/

/-- One element of `doc.complianceFrameworks`. -/
structure FrameworkAssociation where
  framework : String
  relevanceScore : Option ℚ
deriving DecidableEq, Repr

/-- A document as delivered by the document listing service; only the two
fields read by the analyzer are kept. -/
structure Document where
  documentType : Option String
  complianceFrameworks : Option (List FrameworkAssociation)
deriving DecidableEq, Repr

/-- The value stored in the `frameworkCoverage` map (lines 54-59). -/
structure CoverageAcc where
  framework : String
  documents : Nat
  avgRelevance : ℚ
  totalRelevance : ℚ
deriving DecidableEq, Repr

/-- An element of the returned `frameworkCoverage` array (lines 118-122). -/
structure CoverageEntry where
  framework : String
  documents : Nat
  avgRelevance : ℚ
  totalRelevance : ℚ
  completeness : Nat
  status : String
deriving DecidableEq, Repr

/-- An element of `gaps` (lines 83-88 and 102-107); a framework gap has no
`docType` field and a document gap has no `framework` field. -/
structure Gap where
  type : String
  framework : Option String
  docType : Option String
  severity : String
  description : String
deriving DecidableEq, Repr

/-- An element of `recommendations` (lines 89-94 and 108-113). -/
structure Recommendation where
  type : String
  priority : String
  title : String
  description : String
deriving DecidableEq, Repr

/-- The object returned by `analyzeCompliance` (lines 124-129). -/
structure AnalysisResult where
  overallScore : Nat
  frameworkCoverage : List CoverageEntry
  gaps : List Gap
  recommendations : List Recommendation
deriving DecidableEq, Repr

/-! ## JavaScript primitives used by the analyzer -/

/-- `Set.prototype.has` on a set of strings. -/
def setHas (s : List String) (x : String) : Bool := decide (x ∈ s)

/-- `Set.prototype.add`: a new element goes to the end, a known one changes nothing. -/
def setAdd (s : List String) (x : String) : List String :=
  if setHas s x then s else s ++ [x]

/-- `Map.prototype.has`. -/
def mapHas (m : List (String × CoverageAcc)) (k : String) : Bool :=
  m.any (fun kv => kv.1 == k)

/-- `Map.prototype.set`: a known key keeps its position, a new key goes to the end. -/
def mapSet (m : List (String × CoverageAcc)) (k : String) (v : CoverageAcc) :
    List (String × CoverageAcc) :=
  if mapHas m k then m.map (fun kv => if kv.1 == k then (k, v) else kv) else m ++ [(k, v)]

/-- The in-place update of the object that `frameworkCoverage.get(key)` returns:
the value stored under `key` is replaced by `f` of it. -/
def mapModify (m : List (String × CoverageAcc)) (k : String) (f : CoverageAcc → CoverageAcc) :
    List (String × CoverageAcc) :=
  match m with
  | [] => []
  | kv :: rest => if kv.1 == k then (kv.1, f kv.2) :: rest else kv :: mapModify rest k f

/-- Truthiness of `doc.documentType`: absent and the empty string are falsy. -/
def truthyString : Option String → Option String
  | some s => if s = "" then none else some s
  | none => none

/-- The expression `fw.relevanceScore || 0.5` (line 63): an absent score and the
score `0` are falsy and give `0.5`. -/
def relevanceOrDefault : Option ℚ → ℚ
  | some r => if r = 0 then 1 / 2 else r
  | none => 1 / 2

/-- `String.prototype.replace` with a one-character string pattern: only the first
occurrence is replaced. -/
def replaceFirstChars (c r : Char) : List Char → List Char
  | [] => []
  | x :: xs => if x = c then r :: xs else x :: replaceFirstChars c r xs

/-- The call `docType.replace('_', ' ')` (lines 106, 111, 112). -/
def replaceUnderscore (s : String) : String :=
  String.mk (replaceFirstChars '_' ' ' s.data)

/-! ## The fold over the documents (lines 40-67) -/

/-- The three collections built by the first loop. -/
structure Collected where
  frameworkCoverage : List (String × CoverageAcc)
  documentTypes : List String
  detectedFrameworks : List String
deriving DecidableEq, Repr

/-- The state before the loop (lines 40-42). -/
def Collected.empty : Collected :=
  { frameworkCoverage := [], documentTypes := [], detectedFrameworks := [] }

/-- Lines 62-64: the update of the entry fetched by `frameworkCoverage.get`. -/
def bumpCoverage (fw : FrameworkAssociation) (current : CoverageAcc) : CoverageAcc :=
  let documents := current.documents + 1
  let totalRelevance := current.totalRelevance + relevanceOrDefault fw.relevanceScore
  { framework := current.framework
    documents := documents
    totalRelevance := totalRelevance
    avgRelevance := totalRelevance / (documents : ℚ) }

/-- Lines 52-64: the body of the inner `forEach`. -/
def foldAssociation (st : Collected) (fw : FrameworkAssociation) : Collected :=
  let detected := setAdd st.detectedFrameworks fw.framework
  let coverage :=
    if !(mapHas st.frameworkCoverage fw.framework) then
      mapSet st.frameworkCoverage fw.framework
        { framework := fw.framework, documents := 0, avgRelevance := 0, totalRelevance := 0 }
    else st.frameworkCoverage
  { frameworkCoverage := mapModify coverage fw.framework (bumpCoverage fw)
    documentTypes := st.documentTypes
    detectedFrameworks := detected }

/-- Lines 46-66: the body of the outer `forEach`. -/
def foldDocument (st : Collected) (doc : Document) : Collected :=
  let st1 : Collected :=
    match truthyString doc.documentType with
    | some t => { st with documentTypes := setAdd st.documentTypes t }
    | none => st
  match doc.complianceFrameworks with
  | some fws => fws.foldl foldAssociation st1
  | none => st1

/-- Lines 40-67: the whole first loop. -/
def collect (documents : List Document) : Collected :=
  documents.foldl foldDocument Collected.empty

/-! ## Scores (lines 70-73) -/

def documentScore (documents : List Document) : Nat :=
  min (documents.length * 5) 30

def frameworkScore (c : Collected) : Nat :=
  min (c.detectedFrameworks.length * 15) 50

def diversityScore (c : Collected) : Nat :=
  min (c.documentTypes.length * 4) 20

/-- The local `overallScore` of line 73, before the cap of line 125. -/
def rawScore (documents : List Document) (c : Collected) : Nat :=
  documentScore documents + frameworkScore c + diversityScore c

/-! ## Gap detection (lines 76-115) -/

def keyFrameworks : List String := ["CSRD", "ISSB", "GHG_Protocol", "TCFD"]

def keyDocTypes : List String := ["governance_policy", "environmental_data", "esg_report"]

/-- The object pushed at lines 83-88. -/
def frameworkGap (framework : String) : Gap :=
  { type := "framework"
    framework := some framework
    docType := none
    severity := "high"
    description := "No documents found for " ++ framework ++ " compliance" }

/-- The object pushed at lines 89-94. -/
def frameworkRecommendation (framework : String) : Recommendation :=
  { type := "framework"
    priority := "high"
    title := "Implement " ++ framework ++ " Reporting"
    description := "Upload or create documents that address " ++ framework ++ " requirements" }

/-- The object pushed at lines 102-107. -/
def documentGap (docType : String) : Gap :=
  { type := "document"
    framework := none
    docType := some docType
    severity := "medium"
    description := "Missing " ++ replaceUnderscore docType ++ " documentation" }

/-- The object pushed at lines 108-113. -/
def documentRecommendation (docType : String) : Recommendation :=
  { type := "document"
    priority := "medium"
    title := "Add " ++ replaceUnderscore docType
    description := "Upload documents related to " ++ replaceUnderscore docType }

/-- Lines 82-95: the body of `keyFrameworks.forEach`, on the pair of arrays
`(gaps, recommendations)`. -/
def checkFramework (detectedFrameworks : List String)
    (st : List Gap × List Recommendation) (framework : String) :
    List Gap × List Recommendation :=
  if !(setHas detectedFrameworks framework) then
    (st.1 ++ [frameworkGap framework], st.2 ++ [frameworkRecommendation framework])
  else st

/-- Lines 101-114: the body of `keyDocTypes.forEach`. -/
def checkDocType (documentTypes : List String)
    (st : List Gap × List Recommendation) (docType : String) :
    List Gap × List Recommendation :=
  if !(setHas documentTypes docType) then
    (st.1 ++ [documentGap docType], st.2 ++ [documentRecommendation docType])
  else st

/-- Lines 76-115: the arrays `gaps` and `recommendations` before they are sliced. -/
def detect (c : Collected) : List Gap × List Recommendation :=
  keyDocTypes.foldl (checkDocType c.documentTypes)
    (keyFrameworks.foldl (checkFramework c.detectedFrameworks) ([], []))

/-! ## Coverage table (lines 118-122) and result (lines 124-129) -/

/-- The arrow function mapped over `frameworkCoverage.values()`. -/
def toCoverageEntry (fw : CoverageAcc) : CoverageEntry :=
  { framework := fw.framework
    documents := fw.documents
    avgRelevance := fw.avgRelevance
    totalRelevance := fw.totalRelevance
    completeness := min (fw.documents * 25) 100
    status :=
      if fw.avgRelevance > 7 / 10 then "good"
      else if fw.avgRelevance > 4 / 10 then "fair" else "poor" }

/-- `Array.from(frameworkCoverage.values()).map(...)`. -/
def coverageArray (c : Collected) : List CoverageEntry :=
  (c.frameworkCoverage.map Prod.snd).map toCoverageEntry

/-- `analyzeCompliance(documents, availableFrameworks)`. -/
def analyzeCompliance (documents : List Document) (availableFrameworks : List String) :
    AnalysisResult :=
  let _ := availableFrameworks
  let c := collect documents
  let overallScore := rawScore documents c
  let found := detect c
  { overallScore := min overallScore 100
    frameworkCoverage := coverageArray c
    gaps := found.1.take 5
    recommendations := found.2.take 4 }

/-! ## Quantities the specification speaks about -/

/-- The associations of one document; an absent `complianceFrameworks` has none. -/
def docAssociations (doc : Document) : List FrameworkAssociation :=
  match doc.complianceFrameworks with
  | some fws => fws
  | none => []

/-- All associations of all documents, in traversal order. -/
def associations (documents : List Document) : List FrameworkAssociation :=
  documents.flatMap docAssociations

/-- The framework identifiers of all associations, in traversal order, with repetitions. -/
def frameworkNames (documents : List Document) : List String :=
  (associations documents).map (fun fw => fw.framework)

/-- The `documentType` values that are present, in document order, with repetitions. -/
def presentDocumentTypes (documents : List Document) : List String :=
  documents.filterMap (fun doc => doc.documentType)

/-- The `documentType` values that are present and not the empty string. -/
def nonEmptyDocumentTypes (documents : List Document) : List String :=
  documents.filterMap (fun doc => truthyString doc.documentType)

/-- The identifier a gap names: the framework of a framework gap, the document type
of a document gap. -/
def Gap.names (g : Gap) (x : String) : Prop :=
  g.framework = some x ∨ g.docType = some x

instance (g : Gap) (x : String) : Decidable (g.names x) := by
  unfold Gap.names; infer_instance

/-- The key frameworks that no association names, in canonical order. -/
def missingFrameworks (c : Collected) : List String :=
  keyFrameworks.filter (fun framework => !(setHas c.detectedFrameworks framework))

/-- The key document types that no document has, in canonical order. -/
def missingDocTypes (c : Collected) : List String :=
  keyDocTypes.filter (fun docType => !(setHas c.documentTypes docType))

/-- The document of the specification's single-document example. -/
def exampleDocument : Document :=
  { documentType := some "esg_report"
    complianceFrameworks := some [{ framework := "CSRD", relevanceScore := some (9 / 10) }] }

/-- The invariant of the first loop that ties the map to the set: the keys of
`frameworkCoverage`, in insertion order, are the elements of `detectedFrameworks`, and
every stored value carries its own key in its `framework` field. -/
def Collected.Linked (st : Collected) : Prop :=
  st.frameworkCoverage.map Prod.fst = st.detectedFrameworks ∧
    ∀ kv ∈ st.frameworkCoverage, kv.2.framework = kv.1

/-- The identifiers of a sequence, each kept only at its first occurrence. -/
def firstOccurrences : List String → List String
  | [] => []
  | x :: xs => x :: (firstOccurrences xs).filter (fun y => y ≠ x)

/-- The relevance contributions (line 63) of the associations that name framework
`k`, in traversal order. -/
def contributions (seen : List FrameworkAssociation) (k : String) : List ℚ :=
  (seen.filter (fun a => a.framework = k)).map (fun a => relevanceOrDefault a.relevanceScore)

/-- The invariant of the first loop on the values of the coverage map, after the
associations `seen` have been folded in: keys are unique, every framework seen has a
key, and the value under a key counts and sums the contributions for that key. -/
def Tallied (m : List (String × CoverageAcc)) (seen : List FrameworkAssociation) : Prop :=
  (m.map Prod.fst).Nodup ∧
    (∀ a ∈ seen, a.framework ∈ m.map Prod.fst) ∧
    ∀ kv ∈ m,
      kv.2.documents = (contributions seen kv.1).length ∧
      kv.2.totalRelevance = (contributions seen kv.1).sum ∧
      kv.2.avgRelevance = kv.2.totalRelevance / (kv.2.documents : ℚ)

/-! ## The dashboard variant (src/src/components/Dashboard.jsx, lines 91-112) -/

/-- Lines 98-103: the body of `documents.forEach`, on the pair of sets
`(frameworkCoverage, documentTypes)`. -/
def Dashboard.foldDocument (st : List String × List String) (doc : Document) :
    List String × List String :=
  let frameworkCoverage :=
    match doc.complianceFrameworks with
    | some fws => fws.foldl (fun s fw => setAdd s fw.framework) st.1
    | none => st.1
  let documentTypes :=
    match truthyString doc.documentType with
    | some t => setAdd st.2 t
    | none => st.2
  (frameworkCoverage, documentTypes)

/-- `calculateComplianceScore(documents)` of the dashboard. -/
def Dashboard.calculateComplianceScore (documents : List Document) : Nat :=
  if documents.length = 0 then 0
  else
    let sets := documents.foldl Dashboard.foldDocument ([], [])
    let frameworkScore := min (sets.1.length * 15) 60
    let documentScore := min (sets.2.length * 10) 30
    let baseScore := if documents.length > 0 then 10 else 0
    min (frameworkScore + documentScore + baseScore) 100

/-- The coverage entry of the specification's single-document example. -/
def exampleEntry : CoverageEntry :=
  { framework := "CSRD", documents := 1, avgRelevance := 9 / 10, totalRelevance := 9 / 10
    completeness := 25, status := "good" }

/-- A document with one association whose relevance score is present and equal to `0`. -/
def zeroRelevanceDocument : Document :=
  { documentType := none
    complianceFrameworks := some [{ framework := "CSRD", relevanceScore := some 0 }] }

/-- A document with one association whose relevance score, `2`, lies above `1`. -/
def outOfRangeDocument : Document :=
  { documentType := none
    complianceFrameworks := some [{ framework := "CSRD", relevanceScore := some 2 }] }

/-- The value an entry of the coverage map must hold once the associations `seen`
have been folded in, as a function of its key alone. -/
def tallyOf (seen : List FrameworkAssociation) (k : String) : CoverageAcc :=
  { framework := k
    documents := (contributions seen k).length
    totalRelevance := (contributions seen k).sum
    avgRelevance := (contributions seen k).sum / (((contributions seen k).length : ℕ) : ℚ) }

/-- The number of key frameworks carried by no document plus the number of key
document types held by no document. -/
def missingCount (documents : List Document) : Nat :=
  (keyFrameworks.filter (fun F => decide (F ∉ frameworkNames documents))).length +
    (keyDocTypes.filter (fun T => decide (T ∉ presentDocumentTypes documents))).length

/-- A document that has neither a `documentType` nor a `complianceFrameworks` field. -/
def bareDocument : Document :=
  { documentType := none, complianceFrameworks := none }

/-- A document whose `documentType` is present and is the empty string. -/
def emptyTypeDocument : Document :=
  { documentType := some "", complianceFrameworks := none }

/-- A document that names the framework `CSRD` twice. -/
def repeatedFrameworkDocument : Document :=
  { documentType := none
    complianceFrameworks :=
      some [{ framework := "CSRD", relevanceScore := some (1 / 2) },
            { framework := "CSRD", relevanceScore := some 1 }] }

/-! ## Upload-status polling (src/src/components/FileUpload.jsx, lines 134-192) -/

/-- An element of the `uploadedFiles` state; only the fields the polling touches. -/
structure UploadedFile where
  id : Nat
  status : String
  processed : Bool
  message : Option String
  metadata : Option String
deriving DecidableEq, Repr

/-- What one status check meets: an OK response with its `status` and `metadata`, a
response that is not OK, or an error thrown by `fetch` or `response.json()`. -/
inductive Outcome where
  | ok (status : String) (metadata : Option String)
  | notOk
  | thrown
deriving DecidableEq, Repr

/-- The closure state of `pollProcessingStatus` together with the `uploadedFiles`
state. `pending` tells whether a `checkStatus` timer is scheduled; `checks` counts the
runs of `checkStatus` and `forced` records the forced update of lines 171-177 (both
are observations, the code does not store them). -/
structure PollState where
  uploadedFiles : List UploadedFile
  attempts : Nat
  pending : Bool
  checks : Nat
  forced : Bool
deriving DecidableEq, Repr

/-- Line 135. -/
def maxAttempts : Nat := 30

/-- Lines 185-192. -/
def getStatusMessage (status : String) : String :=
  if status = "pending" then "Queued for processing..."
  else if status = "processing" then "Extracting content and generating embeddings..."
  else if status = "completed" then "Processed and indexed successfully"
  else if status = "failed" then "Processing failed"
  else "Processing..."

/-- Lines 144-156: the update of the file after an OK response. -/
def applyStatus (fileId : Nat) (status : String) (metadata : Option String)
    (files : List UploadedFile) : List UploadedFile :=
  files.map (fun f =>
    if f.id = fileId then
      { f with
        status := status
        processed := decide (status = "completed")
        message := some (getStatusMessage status)
        metadata := metadata }
    else f)

/-- Lines 171-177: the forced update after the last attempt. -/
def forceCompleted (fileId : Nat) (files : List UploadedFile) : List UploadedFile :=
  files.map (fun f =>
    if f.id = fileId then
      { f with status := "completed", processed := true, message := some "Processing completed" }
    else f)

/-- Lines 166-178: what `checkStatus` does when it has not returned early. -/
def retryOrGiveUp (fileId : Nat) (st : PollState) : PollState :=
  let attempts := st.attempts + 1
  if attempts < maxAttempts then
    { st with attempts := attempts, pending := true }
  else
    { st with
      attempts := attempts
      uploadedFiles := forceCompleted fileId st.uploadedFiles
      forced := true }

/-- The test of line 158. -/
def isTerminal (status : String) : Bool :=
  decide (status = "completed") || decide (status = "failed")

/-- Lines 138-179: one run of `checkStatus`, given what the status check meets. -/
def checkStatus (fileId : Nat) (st : PollState) (o : Outcome) : PollState :=
  let st1 : PollState := { st with pending := false, checks := st.checks + 1 }
  match o with
  | Outcome.ok status metadata =>
    let st2 : PollState :=
      { st1 with uploadedFiles := applyStatus fileId status metadata st1.uploadedFiles }
    if isTerminal status then st2 else retryOrGiveUp fileId st2
  | Outcome.notOk => retryOrGiveUp fileId st1
  | Outcome.thrown => retryOrGiveUp fileId st1

/-- The timer loop: while a `checkStatus` timer is scheduled it fires, and the run
meets the outcome that the environment holds for that check. -/
def runTimers (fileId : Nat) (outcomes : Nat → Outcome) : Nat → PollState → PollState
  | 0, st => st
  | fuel + 1, st =>
    if st.pending then runTimers fileId outcomes fuel (checkStatus fileId st (outcomes st.checks))
    else st

/-- `pollProcessingStatus(fileId, documentId)`: the state when the call returns, with
the first timer scheduled (line 182). -/
def pollStart (files : List UploadedFile) : PollState :=
  { uploadedFiles := files, attempts := 0, pending := true, checks := 0, forced := false }

/-- The polling run to its end, for at most `fuel` timer firings. -/
def pollProcessingStatus (fileId : Nat) (outcomes : Nat → Outcome) (fuel : Nat)
    (files : List UploadedFile) : PollState :=
  runTimers fileId outcomes fuel (pollStart files)

/-- Whether a status check meets an OK response whose status ends the polling. -/
def Outcome.stops : Outcome → Bool
  | Outcome.ok status _ => isTerminal status
  | Outcome.notOk => false
  | Outcome.thrown => false

/-! ## View routing (src/src/App.jsx, lines 29-49) -/

/-- What `navigate` receives: a path string, or a member inherited from
`Object.prototype`, which is not a string. -/
inductive NavTarget where
  | path (p : String)
  | inherited (name : String)
deriving DecidableEq, Repr

/-- The six view identifiers, the own keys of `routes` (lines 41-46). -/
def viewIds : List String := ["dashboard", "chat", "upload", "insights", "reports", "settings"]

/-- The property names every object literal inherits from `Object.prototype`. -/
def objectPrototypeKeys : List String :=
  ["constructor", "hasOwnProperty", "isPrototypeOf", "propertyIsEnumerable",
   "toLocaleString", "toString", "valueOf", "__proto__", "__defineGetter__",
   "__defineSetter__", "__lookupGetter__", "__lookupSetter__"]

/-- The own properties of the object literal `routes` (lines 40-47). -/
def routes : List (String × String) :=
  [("dashboard", "/"), ("chat", "/chat"), ("upload", "/upload"), ("insights", "/insights"),
   ("reports", "/reports"), ("settings", "/settings")]

/-- The property access `routes[view]`: an own property, else an inherited member,
else `undefined`. -/
def routesGet (view : String) : Option NavTarget :=
  match routes.lookup view with
  | some p => some (NavTarget.path p)
  | none => if view ∈ objectPrototypeKeys then some (NavTarget.inherited view) else none

/-- Truthiness of the value of `routes[view]`: `undefined` and the empty string are
falsy, every object is truthy. -/
def truthyTarget : Option NavTarget → Option NavTarget
  | some (NavTarget.path p) => if p = "" then none else some (NavTarget.path p)
  | some (NavTarget.inherited n) => some (NavTarget.inherited n)
  | none => none

/-- `setCurrentView(view)` (lines 39-49): the argument it passes to `navigate`. -/
def setCurrentView (view : String) : NavTarget :=
  match truthyTarget (routesGet view) with
  | some target => target
  | none => NavTarget.path "/"

/-- `getCurrentView()` (lines 29-37), as a function of `location.pathname`. -/
def getCurrentView (path : String) : String :=
  if path = "/chat" then "chat"
  else if path = "/upload" then "upload"
  else if path = "/insights" then "insights"
  else if path = "/reports" then "reports"
  else if path = "/settings" then "settings"
  else "dashboard"

/-- How a polling run that starts with check number `start` must have ended: no timer
is left, at most `maxAttempts` checks ran, the run stopped right after the first OK
response with a final status (no forced update), and without such a response among
the checks below `maxAttempts` the file was forced to `completed`. -/
def PollEnds (fileId : Nat) (outcomes : Nat → Outcome) (start : Nat) (final : PollState) :
    Prop :=
  final.pending = false ∧ final.checks ≤ maxAttempts ∧
  (∀ k, start ≤ k → k < maxAttempts → (outcomes k).stops = true →
    (∀ j, start ≤ j → j < k → (outcomes j).stops = false) →
    final.checks = k + 1 ∧ final.forced = false ∧
    ∀ status metadata, outcomes k = Outcome.ok status metadata →
      ∀ f ∈ final.uploadedFiles, f.id = fileId →
        f.status = status ∧ f.processed = decide (status = "completed")) ∧
  ((∀ j, start ≤ j → j < maxAttempts → (outcomes j).stops = false) →
    final.checks = maxAttempts ∧ final.forced = true ∧
    ∀ f ∈ final.uploadedFiles, f.id = fileId → f.status = "completed" ∧ f.processed = true)

/-- A file in the state the upload leaves it in when polling starts (lines 68-80). -/
def processingFile : UploadedFile :=
  { id := 7, status := "processing", processed := false
    message := some "Processing document...", metadata := none }

/-- An environment in which the third status check (number 2) is the first to meet an
OK response with status `completed`; the first check fails and the second still
reports `processing`. -/
def completesAtThird : Nat → Outcome := fun k =>
  if k = 0 then Outcome.thrown
  else if k = 1 then Outcome.ok "processing" none
  else Outcome.ok "completed" (some "pages: 3")

/-! ## The analyzer over an explicit number arithmetic

Lines 63-64 add and divide JavaScript numbers, which are IEEE-754 doubles. The
definitions above read `+` and `/` as the exact operations on rationals, which is
what the properties of scores, gaps, recommendations, names and counts need. The
definitions below take the arithmetic as a parameter, so that the same loop can be
read with correctly rounded double operations. A finite double is represented by the
rational it denotes; NaN, the infinities and the sign of zero are outside the model. -/

/-- The number operations used by the analyzer: `+` (line 63), `/` (line 64) and the
value a decimal literal such as `0.7` denotes (line 121). -/
structure Arithmetic where
  add : ℚ → ℚ → ℚ
  div : ℚ → ℚ → ℚ
  literal : ℚ → ℚ

/-- Exact rational arithmetic. -/
def exactArithmetic : Arithmetic :=
  { add := fun x y => x + y, div := fun x y => x / y, literal := fun x => x }

/-- The number of binary digits of `n`, with `fuel` at least that number. -/
def bitLength : Nat → Nat → Nat
  | 0, _ => 0
  | fuel + 1, n => if n = 0 then 0 else bitLength fuel (n / 2) + 1

/-- The integer nearest to `n / d`, a tie going to the even neighbour. -/
def roundHalfEven (n d : Nat) : Nat :=
  let q := n / d
  let r := n % d
  if 2 * r < d then q else if d < 2 * r then q + 1 else if q % 2 = 0 then q else q + 1

/-- Whether `2 ^ e ≤ n / d`. -/
def powLe (e : Int) (n d : Nat) : Bool :=
  if 0 ≤ e then decide (d * 2 ^ e.toNat ≤ n) else decide (d ≤ n * 2 ^ (-e).toNat)

/-- The exponent `e` with `2 ^ e ≤ n / d < 2 ^ (e + 1)`, for positive `n` and `d`: one
of the two candidates that the bit lengths leave (the last branch is never taken). -/
def binade (n d : Nat) : Int :=
  let e0 : Int := (bitLength n n : Int) - (bitLength d d : Int)
  if powLe e0 n d then e0 else if powLe (e0 - 1) n d then e0 - 1 else -1022

/-- The double nearest to the rational `x` (round to nearest, ties to even), as a
rational: 53 significant bits, and from exponent `-1022` downwards the fixed spacing
`2 ^ (-1074)` of the subnormal numbers. Overflow to infinity is not modelled. -/
def roundDouble (x : ℚ) : ℚ :=
  if x = 0 then 0
  else
    let n := x.num.natAbs
    let d := x.den
    let s : Int := max (binade n d) (-1022) - 52
    let mag : ℚ :=
      if 0 ≤ s then ((roundHalfEven n (d * 2 ^ s.toNat) * 2 ^ s.toNat : Nat) : ℚ)
      else (roundHalfEven (n * 2 ^ (-s).toNat) d : ℚ) / ((2 ^ (-s).toNat : Nat) : ℚ)
    if x < 0 then -mag else mag

/-- The arithmetic of JavaScript numbers: every operation returns the double nearest
to the exact result, a decimal literal denotes the double nearest to it. The analyzer
only divides by a document count, which is at least 1, so division by zero, which
JavaScript answers with `NaN` or an infinity, does not occur. -/
def doubleArithmetic : Arithmetic :=
  { add := fun x y => roundDouble (x + y)
    div := fun x y => roundDouble (x / y)
    literal := roundDouble }

/-- Lines 62-64 over the arithmetic `ar`. -/
def bumpCoverageIn (ar : Arithmetic) (fw : FrameworkAssociation) (current : CoverageAcc) :
    CoverageAcc :=
  let documents := current.documents + 1
  let totalRelevance := ar.add current.totalRelevance (relevanceOrDefault fw.relevanceScore)
  { framework := current.framework
    documents := documents
    totalRelevance := totalRelevance
    avgRelevance := ar.div totalRelevance (documents : ℚ) }

/-- Lines 52-64 over the arithmetic `ar`. -/
def foldAssociationIn (ar : Arithmetic) (st : Collected) (fw : FrameworkAssociation) :
    Collected :=
  let detected := setAdd st.detectedFrameworks fw.framework
  let coverage :=
    if !(mapHas st.frameworkCoverage fw.framework) then
      mapSet st.frameworkCoverage fw.framework
        { framework := fw.framework, documents := 0, avgRelevance := 0, totalRelevance := 0 }
    else st.frameworkCoverage
  { frameworkCoverage := mapModify coverage fw.framework (bumpCoverageIn ar fw)
    documentTypes := st.documentTypes
    detectedFrameworks := detected }

/-- Lines 46-66 over the arithmetic `ar`. -/
def foldDocumentIn (ar : Arithmetic) (st : Collected) (doc : Document) : Collected :=
  let st1 : Collected :=
    match truthyString doc.documentType with
    | some t => { st with documentTypes := setAdd st.documentTypes t }
    | none => st
  match doc.complianceFrameworks with
  | some fws => fws.foldl (foldAssociationIn ar) st1
  | none => st1

/-- Lines 40-67 over the arithmetic `ar`. -/
def collectIn (ar : Arithmetic) (documents : List Document) : Collected :=
  documents.foldl (foldDocumentIn ar) Collected.empty

/-- Lines 118-122 over the arithmetic `ar`: the thresholds are the numbers that the
literals `0.7` and `0.4` denote. -/
def toCoverageEntryIn (ar : Arithmetic) (fw : CoverageAcc) : CoverageEntry :=
  { framework := fw.framework
    documents := fw.documents
    avgRelevance := fw.avgRelevance
    totalRelevance := fw.totalRelevance
    completeness := min (fw.documents * 25) 100
    status :=
      if fw.avgRelevance > ar.literal (7 / 10) then "good"
      else if fw.avgRelevance > ar.literal (4 / 10) then "fair" else "poor" }

/-- `Array.from(frameworkCoverage.values()).map(...)` over the arithmetic `ar`. -/
def coverageArrayIn (ar : Arithmetic) (c : Collected) : List CoverageEntry :=
  (c.frameworkCoverage.map Prod.snd).map (toCoverageEntryIn ar)

/-- `analyzeCompliance(documents, availableFrameworks)` over the arithmetic `ar`; with
`doubleArithmetic` it is the function as JavaScript evaluates it. -/
def analyzeComplianceIn (ar : Arithmetic) (documents : List Document)
    (availableFrameworks : List String) : AnalysisResult :=
  let _ := availableFrameworks
  let c := collectIn ar documents
  let overallScore := rawScore documents c
  let found := detect c
  { overallScore := min overallScore 100
    frameworkCoverage := coverageArrayIn ar c
    gaps := found.1.take 5
    recommendations := found.2.take 4 }

/-- The invariant of the first loop on the values of the coverage map, over the
arithmetic `ar`: keys are unique, every framework seen has a key, and the value under
a key counts the contributions for that key, holds their sum taken from left to right
with `ar.add`, and, once one has been counted, the quotient of sum and count. -/
def TalliedIn (ar : Arithmetic) (m : List (String × CoverageAcc))
    (seen : List FrameworkAssociation) : Prop :=
  (m.map Prod.fst).Nodup ∧
    (∀ a ∈ seen, a.framework ∈ m.map Prod.fst) ∧
    ∀ kv ∈ m,
      kv.2.documents = (contributions seen kv.1).length ∧
      kv.2.totalRelevance = (contributions seen kv.1).foldl ar.add 0 ∧
      (0 < kv.2.documents →
        kv.2.avgRelevance = ar.div kv.2.totalRelevance (kv.2.documents : ℚ))

/-- A document with one association to `CSRD` whose relevance score is the double
that the decimal `r` denotes. -/
def scoredDocument (r : ℚ) : Document :=
  { documentType := none
    complianceFrameworks := some [{ framework := "CSRD", relevanceScore := some (roundDouble r) }] }

/-- Three documents with the scores `0.1`, `0.2`, `0.9` for `CSRD`. -/
def scoredDocuments : List Document :=
  [scoredDocument (1 / 10), scoredDocument (2 / 10), scoredDocument (9 / 10)]

/-- The same three documents with the last two exchanged. -/
def scoredDocumentsSwapped : List Document :=
  [scoredDocument (1 / 10), scoredDocument (9 / 10), scoredDocument (2 / 10)]

/-- A document that names `CSRD` twice, with the scores `0.1` and `0.2`. -/
def twoScoresDocument : Document :=
  { documentType := none
    complianceFrameworks :=
      some [{ framework := "CSRD", relevanceScore := some (roundDouble (1 / 10)) },
            { framework := "CSRD", relevanceScore := some (roundDouble (2 / 10)) }] }

/-- The coverage entry JavaScript computes for `twoScoresDocument`: the total is the
double `0.30000000000000004`, the average the double `0.15000000000000002`. -/
def twoScoresEntry : CoverageEntry :=
  { framework := "CSRD", documents := 2
    avgRelevance := 1351079888211149 / 9007199254740992
    totalRelevance := 1351079888211149 / 4503599627370496
    completeness := 50, status := "poor" }

/-- The coverage entry JavaScript computes for `scoredDocuments`: the total is the
double `1.2000000000000002` and the average the double `0.4000000000000001`, which
exceeds the double `0.4`. -/
def scoredEntry : CoverageEntry :=
  { framework := "CSRD", documents := 3
    avgRelevance := 7205759403792795 / 18014398509481984
    totalRelevance := 1351079888211149 / 1125899906842624
    completeness := 75, status := "fair" }

/-- The coverage entry JavaScript computes for `scoredDocumentsSwapped`: the total is
the double `1.2` and the average the double `0.39999999999999997`, which does not
exceed the double `0.4`. -/
def scoredEntrySwapped : CoverageEntry :=
  { framework := "CSRD", documents := 3
    avgRelevance := 7205759403792793 / 18014398509481984
    totalRelevance := 5404319552844595 / 4503599627370496
    completeness := 75, status := "poor" }

/-- The arguments of all calls of `setCurrentView`: `item.id` over `menuItems`
(Sidebar.jsx, lines 7-12 and 54), `item.id` over `navItems` and two literals
(Header.jsx, lines 6-9, 41, 58, 69), and three literals (Dashboard.jsx, lines 229, 241,
253). -/
def callerViews : List String :=
  ["dashboard", "chat", "upload", "insights", "reports", "settings",
   "dashboard", "chat", "upload", "insights", "chat", "settings",
   "chat", "upload", "reports"]

/-! # Properties -/

/-! ## Sets as insertion-ordered lists -/

theorem setHas_iff (s : List String) (x : String) : setHas s x = true ↔ x ∈ s := by
  simp [setHas]

theorem mem_setAdd (s : List String) (x y : String) : y ∈ setAdd s x ↔ y ∈ s ∨ y = x := by
  unfold setAdd
  by_cases h : setHas s x = true
  · have hx : x ∈ s := (setHas_iff s x).1 h
    simp only [h, if_true]
    constructor
    · intro hy; exact Or.inl hy
    · rintro (hy | rfl)
      · exact hy
      · exact hx
  · simp [h]

theorem nodup_setAdd (s : List String) (x : String) (hs : s.Nodup) : (setAdd s x).Nodup := by
  unfold setAdd
  by_cases h : setHas s x = true
  · simp [h, hs]
  · have hx : x ∉ s := fun hx => h ((setHas_iff s x).2 hx)
    simp only [h, if_false, Bool.false_eq_true]
    exact List.Nodup.append hs (List.nodup_singleton x) (by simpa using hx)

theorem mem_foldl_setAdd (l s : List String) (y : String) :
    y ∈ l.foldl setAdd s ↔ y ∈ s ∨ y ∈ l := by
  induction l generalizing s with
  | nil => simp
  | cons x xs ih =>
    simp only [List.foldl_cons, ih, mem_setAdd, List.mem_cons]
    tauto

theorem nodup_foldl_setAdd (l s : List String) (hs : s.Nodup) : (l.foldl setAdd s).Nodup := by
  induction l generalizing s with
  | nil => simpa using hs
  | cons x xs ih => exact ih _ (nodup_setAdd s x hs)

theorem length_foldl_setAdd (l : List String) :
    (l.foldl setAdd []).length = l.toFinset.card := by
  rw [← List.toFinset_card_of_nodup (nodup_foldl_setAdd l [] List.nodup_nil)]
  congr 1
  ext y
  simp [mem_foldl_setAdd]

/-! ## What the first loop collects -/

theorem foldl_foldAssociation_detected (fws : List FrameworkAssociation) (st : Collected) :
    (fws.foldl foldAssociation st).detectedFrameworks =
      (fws.map (fun fw => fw.framework)).foldl setAdd st.detectedFrameworks := by
  induction fws generalizing st with
  | nil => rfl
  | cons fw rest ih => simp only [List.foldl_cons, List.map_cons, ih]; rfl

theorem foldl_foldAssociation_documentTypes (fws : List FrameworkAssociation) (st : Collected) :
    (fws.foldl foldAssociation st).documentTypes = st.documentTypes := by
  induction fws generalizing st with
  | nil => rfl
  | cons fw rest ih => simp only [List.foldl_cons, ih]; rfl

theorem foldDocument_detected (st : Collected) (doc : Document) :
    (foldDocument st doc).detectedFrameworks =
      ((docAssociations doc).map (fun fw => fw.framework)).foldl setAdd st.detectedFrameworks := by
  unfold foldDocument docAssociations
  cases doc.complianceFrameworks <;> cases truthyString doc.documentType <;>
    simp [foldl_foldAssociation_detected]

theorem foldDocument_documentTypes (st : Collected) (doc : Document) :
    (foldDocument st doc).documentTypes =
      (truthyString doc.documentType).toList.foldl setAdd st.documentTypes := by
  unfold foldDocument
  cases doc.complianceFrameworks <;> cases truthyString doc.documentType <;>
    simp [foldl_foldAssociation_documentTypes]

theorem foldl_foldDocument_detected (documents : List Document) (st : Collected) :
    (documents.foldl foldDocument st).detectedFrameworks =
      (frameworkNames documents).foldl setAdd st.detectedFrameworks := by
  induction documents generalizing st with
  | nil => rfl
  | cons doc rest ih =>
    simp only [List.foldl_cons, ih, foldDocument_detected, frameworkNames, associations,
      List.flatMap_cons, List.map_append, List.foldl_append]

theorem foldl_foldDocument_documentTypes (documents : List Document) (st : Collected) :
    (documents.foldl foldDocument st).documentTypes =
      (nonEmptyDocumentTypes documents).foldl setAdd st.documentTypes := by
  induction documents generalizing st with
  | nil => rfl
  | cons doc rest ih =>
    simp only [List.foldl_cons, ih, foldDocument_documentTypes, nonEmptyDocumentTypes,
      List.filterMap_cons]
    cases truthyString doc.documentType <;> simp

/-- The set `detectedFrameworks` after the loop holds the framework identifiers of
all associations, each once, in first-seen order. -/
theorem collect_detected (documents : List Document) :
    (collect documents).detectedFrameworks = (frameworkNames documents).foldl setAdd [] :=
  foldl_foldDocument_detected documents Collected.empty

/-- The set `documentTypes` after the loop holds the truthy `documentType` values. -/
theorem collect_documentTypes (documents : List Document) :
    (collect documents).documentTypes = (nonEmptyDocumentTypes documents).foldl setAdd [] :=
  foldl_foldDocument_documentTypes documents Collected.empty

theorem mem_collect_detected (documents : List Document) (x : String) :
    x ∈ (collect documents).detectedFrameworks ↔ x ∈ frameworkNames documents := by
  simp [collect_detected, mem_foldl_setAdd]

theorem mem_collect_documentTypes (documents : List Document) (x : String) :
    x ∈ (collect documents).documentTypes ↔ x ∈ nonEmptyDocumentTypes documents := by
  simp [collect_documentTypes, mem_foldl_setAdd]

theorem mem_frameworkNames (documents : List Document) (x : String) :
    x ∈ frameworkNames documents ↔
      ∃ doc ∈ documents, ∃ fws, doc.complianceFrameworks = some fws ∧
        ∃ fw ∈ fws, fw.framework = x := by
  unfold frameworkNames associations
  simp only [List.mem_map, List.mem_flatMap]
  constructor
  · rintro ⟨fw, ⟨doc, hdoc, hfw⟩, rfl⟩
    unfold docAssociations at hfw
    cases h : doc.complianceFrameworks with
    | none => simp [h] at hfw
    | some fws =>
      simp only [h] at hfw
      exact ⟨doc, hdoc, fws, h, fw, hfw, rfl⟩
  · rintro ⟨doc, hdoc, fws, h, fw, hfw, rfl⟩
    refine ⟨fw, ⟨doc, hdoc, ?_⟩, rfl⟩
    simp [docAssociations, h, hfw]

theorem mem_nonEmptyDocumentTypes (documents : List Document) (x : String) :
    x ∈ nonEmptyDocumentTypes documents ↔
      x ≠ "" ∧ ∃ doc ∈ documents, doc.documentType = some x := by
  unfold nonEmptyDocumentTypes
  simp only [List.mem_filterMap]
  constructor
  · rintro ⟨doc, hdoc, h⟩
    cases hd : doc.documentType with
    | none => simp [hd, truthyString] at h
    | some s =>
      simp only [hd, truthyString] at h
      by_cases hs : s = ""
      · simp [hs] at h
      · simp only [hs, if_false, Option.some.injEq] at h
        subst h
        exact ⟨hs, doc, hdoc, hd⟩
  · rintro ⟨hx, doc, hdoc, hd⟩
    exact ⟨doc, hdoc, by simp [hd, truthyString, hx]⟩

/-! ## What gap detection produces -/

theorem foldl_checkFramework (detected : List String) (l : List String)
    (st : List Gap × List Recommendation) :
    l.foldl (checkFramework detected) st =
      (st.1 ++ (l.filter (fun x => !(setHas detected x))).map frameworkGap,
        st.2 ++ (l.filter (fun x => !(setHas detected x))).map frameworkRecommendation) := by
  induction l generalizing st with
  | nil => simp
  | cons x xs ih =>
    rw [List.foldl_cons, ih]
    unfold checkFramework
    cases h : setHas detected x <;> simp [h]

theorem foldl_checkDocType (types : List String) (l : List String)
    (st : List Gap × List Recommendation) :
    l.foldl (checkDocType types) st =
      (st.1 ++ (l.filter (fun x => !(setHas types x))).map documentGap,
        st.2 ++ (l.filter (fun x => !(setHas types x))).map documentRecommendation) := by
  induction l generalizing st with
  | nil => simp
  | cons x xs ih =>
    rw [List.foldl_cons, ih]
    unfold checkDocType
    cases h : setHas types x <;> simp [h]

/-- The detected gaps: the framework gaps of the missing key frameworks, then the
document gaps of the missing key document types. -/
theorem detect_gaps (c : Collected) :
    (detect c).1 =
      (missingFrameworks c).map frameworkGap ++ (missingDocTypes c).map documentGap := by
  unfold detect
  rw [foldl_checkDocType, foldl_checkFramework]
  simp [missingFrameworks, missingDocTypes]

/-- The derived recommendations, built alongside the gaps. -/
theorem detect_recommendations (c : Collected) :
    (detect c).2 =
      (missingFrameworks c).map frameworkRecommendation ++
        (missingDocTypes c).map documentRecommendation := by
  unfold detect
  rw [foldl_checkDocType, foldl_checkFramework]
  simp [missingFrameworks, missingDocTypes]

theorem length_missingFrameworks_le (c : Collected) : (missingFrameworks c).length ≤ 4 :=
  (List.length_filter_le _ _).trans (by simp [keyFrameworks])

theorem length_missingDocTypes_le (c : Collected) : (missingDocTypes c).length ≤ 3 :=
  (List.length_filter_le _ _).trans (by simp [keyDocTypes])

theorem mem_missingFrameworks (c : Collected) (x : String) :
    x ∈ missingFrameworks c ↔ x ∈ keyFrameworks ∧ x ∉ c.detectedFrameworks := by
  simp [missingFrameworks, setHas]

theorem mem_missingDocTypes (c : Collected) (x : String) :
    x ∈ missingDocTypes c ↔ x ∈ keyDocTypes ∧ x ∉ c.documentTypes := by
  simp [missingDocTypes, setHas]

/-- The returned gaps: all framework gaps, then as many document gaps as fit under
the cap of five. -/
theorem gaps_eq (documents : List Document) (fw : List String) :
    (analyzeCompliance documents fw).gaps =
      (missingFrameworks (collect documents)).map frameworkGap ++
        ((missingDocTypes (collect documents)).take
          (5 - (missingFrameworks (collect documents)).length)).map documentGap := by
  have h := length_missingFrameworks_le (collect documents)
  show (detect (collect documents)).1.take 5 = _
  rw [detect_gaps, List.take_append_eq_append_take, List.length_map, List.map_take]
  congr 1
  exact List.take_of_length_le (by simp; omega)

/-! ## Score -/

theorem overallScore_eq (documents : List Document) (fw : List String) :
    (analyzeCompliance documents fw).overallScore =
      min (min (documents.length * 5) 30 +
            min ((frameworkNames documents).toFinset.card * 15) 50 +
            min ((nonEmptyDocumentTypes documents).toFinset.card * 4) 20) 100 := by
  show min (rawScore documents (collect documents)) 100 = _
  unfold rawScore documentScore frameworkScore diversityScore
  rw [collect_detected, collect_documentTypes, length_foldl_setAdd, length_foldl_setAdd]

/-- C1: for every list of documents and every `frameworks` argument, the
`overallScore` returned by `analyzeCompliance` is an integer (a natural number, by
construction from lengths, sizes and `Math.min`) with `0 ≤ overallScore ≤ 100`. -/
theorem overallScore_bounds (documents : List Document) (availableFrameworks : List String) :
    0 ≤ (analyzeCompliance documents availableFrameworks).overallScore ∧
      (analyzeCompliance documents availableFrameworks).overallScore ≤ 100 := by
  refine ⟨Nat.zero_le _, ?_⟩
  show min (rawScore documents (collect documents)) 100 ≤ 100
  exact Nat.min_le_right _ _

/-- C2, as stated, fails: a single document whose `documentType` is the empty string
has one present `documentType` value, so the claimed score is `5 + 0 + 4 = 9`, but
the truthiness test of line 46 skips the empty string and the code returns `5`. -/
theorem overallScore_present_types_counterexample :
    (analyzeCompliance [{ documentType := some "", complianceFrameworks := none }] []).overallScore
      ≠ min (min (5 * [({ documentType := some "", complianceFrameworks := none } : Document)].length) 30 +
          min (15 * (frameworkNames
            [{ documentType := some "", complianceFrameworks := none }]).toFinset.card) 50 +
          min (4 * (presentDocumentTypes
            [{ documentType := some "", complianceFrameworks := none }]).toFinset.card) 20) 100 := by
  decide

/-- C2, amended: for every list of documents with `n` documents, `f` distinct
framework identifiers over all associations and `t` distinct `documentType` values
that are present and not the empty string,
`overallScore = min(min(5*n, 30) + min(15*f, 50) + min(4*t, 20), 100)`. -/
theorem overallScore_formula (documents : List Document) (availableFrameworks : List String) :
    (analyzeCompliance documents availableFrameworks).overallScore =
      min (min (5 * documents.length) 30 +
            min (15 * (frameworkNames documents).toFinset.card) 50 +
            min (4 * ((presentDocumentTypes documents).filter (fun t => t ≠ "")).toFinset.card) 20)
        100 := by
  have h : (presentDocumentTypes documents).filter (fun t => t ≠ "") =
      nonEmptyDocumentTypes documents := by
    unfold presentDocumentTypes nonEmptyDocumentTypes
    induction documents with
    | nil => rfl
    | cons doc rest ih =>
      cases hd : doc.documentType with
      | none => simpa [List.filterMap_cons, hd, truthyString] using ih
      | some s =>
        by_cases hs : s = ""
        · simpa [List.filterMap_cons, hd, truthyString, hs] using ih
        · simpa [List.filterMap_cons, hd, truthyString, hs] using ih
  rw [h, overallScore_eq]
  simp only [Nat.mul_comm]

/-! ## The two worked examples -/

/-- C3: for the empty document list and any `frameworks` argument the score is `0`,
the coverage table is empty, the gaps are exactly the four framework gaps `CSRD`,
`ISSB`, `GHG_Protocol`, `TCFD` (severity `high`) followed by the document gap
`governance_policy` (severity `medium`), and the recommendations are exactly four,
all of priority `high`, for `CSRD`, `ISSB`, `GHG_Protocol` and `TCFD` in that order. -/
theorem analyzeCompliance_empty (availableFrameworks : List String) :
    (analyzeCompliance [] availableFrameworks).overallScore = 0 ∧
    (analyzeCompliance [] availableFrameworks).frameworkCoverage = [] ∧
    (analyzeCompliance [] availableFrameworks).gaps =
      [ { type := "framework", framework := some "CSRD", docType := none, severity := "high",
          description := "No documents found for CSRD compliance" },
        { type := "framework", framework := some "ISSB", docType := none, severity := "high",
          description := "No documents found for ISSB compliance" },
        { type := "framework", framework := some "GHG_Protocol", docType := none,
          severity := "high", description := "No documents found for GHG_Protocol compliance" },
        { type := "framework", framework := some "TCFD", docType := none, severity := "high",
          description := "No documents found for TCFD compliance" },
        { type := "document", framework := none, docType := some "governance_policy",
          severity := "medium", description := "Missing governance policy documentation" } ] ∧
    (analyzeCompliance [] availableFrameworks).recommendations =
      [ { type := "framework", priority := "high", title := "Implement CSRD Reporting",
          description := "Upload or create documents that address CSRD requirements" },
        { type := "framework", priority := "high", title := "Implement ISSB Reporting",
          description := "Upload or create documents that address ISSB requirements" },
        { type := "framework", priority := "high", title := "Implement GHG_Protocol Reporting",
          description := "Upload or create documents that address GHG_Protocol requirements" },
        { type := "framework", priority := "high", title := "Implement TCFD Reporting",
          description := "Upload or create documents that address TCFD requirements" } ] := by
  have h : analyzeCompliance [] availableFrameworks = analyzeCompliance [] [] := rfl
  rw [h]
  refine ⟨?_, ?_, ?_, ?_⟩ <;> decide

theorem collect_exampleDocument :
    collect [exampleDocument] =
      { frameworkCoverage :=
          [("CSRD", { framework := "CSRD", documents := 1,
                      avgRelevance := (0 + 9 / 10) / ((0 + 1 : ℕ) : ℚ),
                      totalRelevance := 0 + 9 / 10 })]
        documentTypes := ["esg_report"]
        detectedFrameworks := ["CSRD"] } := by
  have h : relevanceOrDefault (some (9 / 10)) = 9 / 10 := by
    unfold relevanceOrDefault; norm_num
  simp [collect, exampleDocument, foldDocument, truthyString, foldAssociation, setAdd, setHas,
    mapHas, mapSet, mapModify, bumpCoverage, Collected.empty, h]

/-- C4: for the single document `{documentType: 'esg_report', complianceFrameworks:
[{framework: 'CSRD', relevanceScore: 0.9}]}` the score is `24`, the coverage table
has exactly one entry, for `CSRD`, with completeness `25` and status `good`, and the
gaps are `ISSB`, `GHG_Protocol`, `TCFD` (framework gaps), `governance_policy`,
`environmental_data` (document gaps) in that order. -/
theorem analyzeCompliance_exampleDocument (availableFrameworks : List String) :
    (analyzeCompliance [exampleDocument] availableFrameworks).overallScore = 24 ∧
    (analyzeCompliance [exampleDocument] availableFrameworks).frameworkCoverage.map
        (fun e => (e.framework, e.completeness, e.status)) = [("CSRD", 25, "good")] ∧
    (analyzeCompliance [exampleDocument] availableFrameworks).gaps.map
        (fun g => (g.type, g.framework, g.docType, g.severity)) =
      [ ("framework", some "ISSB", none, "high"),
        ("framework", some "GHG_Protocol", none, "high"),
        ("framework", some "TCFD", none, "high"),
        ("document", none, some "governance_policy", "medium"),
        ("document", none, some "environmental_data", "medium") ] := by
  refine ⟨?_, ?_, ?_⟩
  · show min (rawScore [exampleDocument] (collect [exampleDocument])) 100 = 24
    rw [collect_exampleDocument]; decide
  · show (coverageArray (collect [exampleDocument])).map _ = _
    rw [collect_exampleDocument]
    simp only [coverageArray, List.map_cons, List.map_nil, toCoverageEntry]
    norm_num
  · show ((detect (collect [exampleDocument])).1.take 5).map _ = _
    rw [collect_exampleDocument]; decide

/-! ## Caps -/

/-- C5: for every list of documents the result has at most five gaps and at most
four recommendations. -/
theorem gaps_recommendations_capped (documents : List Document)
    (availableFrameworks : List String) :
    (analyzeCompliance documents availableFrameworks).gaps.length ≤ 5 ∧
      (analyzeCompliance documents availableFrameworks).recommendations.length ≤ 4 := by
  constructor
  · show ((detect (collect documents)).1.take 5).length ≤ 5
    rw [List.length_take]; exact Nat.min_le_left _ _
  · show ((detect (collect documents)).2.take 4).length ≤ 4
    rw [List.length_take]; exact Nat.min_le_left _ _

/-! ## Framework gaps and document gaps -/

theorem mem_gaps (documents : List Document) (fw : List String) (g : Gap) :
    g ∈ (analyzeCompliance documents fw).gaps ↔
      (∃ x ∈ missingFrameworks (collect documents), frameworkGap x = g) ∨
      (∃ x ∈ (missingDocTypes (collect documents)).take
          (5 - (missingFrameworks (collect documents)).length), documentGap x = g) := by
  rw [gaps_eq]; simp only [List.mem_append, List.mem_map]

theorem not_mem_keyDocTypes_of_mem_keyFrameworks {x : String} (h : x ∈ keyFrameworks) :
    x ∉ keyDocTypes := by
  simp only [keyFrameworks, List.mem_cons, List.mem_singleton, List.not_mem_nil, or_false] at h
  rcases h with rfl | rfl | rfl | rfl <;> decide

theorem ne_empty_of_mem_keyDocTypes {x : String} (h : x ∈ keyDocTypes) : x ≠ "" := by
  simp only [keyDocTypes, List.mem_cons, List.mem_singleton, List.not_mem_nil, or_false] at h
  rcases h with rfl | rfl | rfl <;> decide

/-- C6: for every list of documents and every key framework `F` among `CSRD`, `ISSB`,
`GHG_Protocol`, `TCFD`, the returned gaps contain a gap of type `framework` naming
`F` if and only if no document carries an association whose framework is `F`; every
gap of type `framework` has severity `high`. -/
theorem framework_gap_iff (documents : List Document) (availableFrameworks : List String)
    (F : String) (hF : F ∈ keyFrameworks) :
    ((∃ g ∈ (analyzeCompliance documents availableFrameworks).gaps,
        g.type = "framework" ∧ g.framework = some F) ↔
      ¬ ∃ doc ∈ documents, ∃ fws, doc.complianceFrameworks = some fws ∧
          ∃ fw ∈ fws, fw.framework = F) ∧
    (∀ g ∈ (analyzeCompliance documents availableFrameworks).gaps,
        g.type = "framework" → g.severity = "high") := by
  constructor
  · rw [← mem_frameworkNames, ← mem_collect_detected]
    constructor
    · rintro ⟨g, hg, -, hname⟩
      rcases (mem_gaps documents availableFrameworks g).1 hg with ⟨x, hx, rfl⟩ | ⟨x, -, rfl⟩
      · have hxF : x = F := by simpa [frameworkGap] using hname
        subst hxF
        exact ((mem_missingFrameworks _ _).1 hx).2
      · simp [documentGap] at hname
    · intro hnot
      refine ⟨frameworkGap F, ?_, rfl, rfl⟩
      exact (mem_gaps documents availableFrameworks _).2
        (Or.inl ⟨F, (mem_missingFrameworks _ _).2 ⟨hF, hnot⟩, rfl⟩)
  · intro g hg htype
    rcases (mem_gaps documents availableFrameworks g).1 hg with ⟨x, -, rfl⟩ | ⟨x, -, rfl⟩
    · rfl
    · exact absurd (show "document" = "framework" from htype) (by decide)

/-- A witness for C6: in the single-document example `ISSB` is a key framework that
no document carries, and the framework gap for it is returned. -/
theorem framework_gap_iff_witness :
    "ISSB" ∈ keyFrameworks ∧
    ((∃ g ∈ (analyzeCompliance [exampleDocument] []).gaps,
        g.type = "framework" ∧ g.framework = some "ISSB") ↔
      ¬ ∃ doc ∈ [exampleDocument], ∃ fws, doc.complianceFrameworks = some fws ∧
          ∃ fw ∈ fws, fw.framework = "ISSB") ∧
    (∀ g ∈ (analyzeCompliance [exampleDocument] []).gaps,
        g.type = "framework" → g.severity = "high") :=
  ⟨by decide, framework_gap_iff [exampleDocument] [] "ISSB" (by decide)⟩

/-- C7: for every list of documents and every key document type `T` among
`governance_policy`, `environmental_data`, `esg_report`: if some document has
`documentType` `T`, no returned gap names `T`; if no document has it, a gap of type
`document` naming `T` with severity `medium` is detected, and it is among the
returned gaps whenever at most five gaps are detected in total. -/
theorem document_gap_cases (documents : List Document) (availableFrameworks : List String)
    (T : String) (hT : T ∈ keyDocTypes) :
    ((∃ doc ∈ documents, doc.documentType = some T) →
      ∀ g ∈ (analyzeCompliance documents availableFrameworks).gaps, ¬ g.names T) ∧
    ((¬ ∃ doc ∈ documents, doc.documentType = some T) →
      ∃ g ∈ (detect (collect documents)).1,
        g.type = "document" ∧ g.docType = some T ∧ g.severity = "medium" ∧
        ((detect (collect documents)).1.length ≤ 5 →
          g ∈ (analyzeCompliance documents availableFrameworks).gaps)) := by
  have hmem : T ∈ (collect documents).documentTypes ↔
      ∃ doc ∈ documents, doc.documentType = some T := by
    rw [mem_collect_documentTypes, mem_nonEmptyDocumentTypes]
    exact ⟨fun h => h.2, fun h => ⟨ne_empty_of_mem_keyDocTypes hT, h⟩⟩
  constructor
  · intro hsome g hg hnames
    have hin : T ∈ (collect documents).documentTypes := hmem.2 hsome
    rcases (mem_gaps documents availableFrameworks g).1 hg with ⟨x, hx, rfl⟩ | ⟨x, hx, rfl⟩
    · have hxT : x = T := by simpa [Gap.names, frameworkGap] using hnames
      subst hxT
      exact not_mem_keyDocTypes_of_mem_keyFrameworks ((mem_missingFrameworks _ _).1 hx).1 hT
    · have hxT : x = T := by simpa [Gap.names, documentGap] using hnames
      subst hxT
      exact ((mem_missingDocTypes _ _).1 (List.mem_of_mem_take hx)).2 hin
  · intro hnone
    have hout : T ∉ (collect documents).documentTypes := fun h => hnone (hmem.1 h)
    have hmiss : T ∈ missingDocTypes (collect documents) :=
      (mem_missingDocTypes _ _).2 ⟨hT, hout⟩
    refine ⟨documentGap T, ?_, rfl, rfl, rfl, ?_⟩
    · rw [detect_gaps]; simp only [List.mem_append, List.mem_map]
      exact Or.inr ⟨T, hmiss, rfl⟩
    · intro hlen
      show documentGap T ∈ (detect (collect documents)).1.take 5
      rw [List.take_of_length_le hlen, detect_gaps]
      simp only [List.mem_append, List.mem_map]
      exact Or.inr ⟨T, hmiss, rfl⟩

/-- A witness for C7: in the single-document example no document has the key type
`governance_policy`, and its document gap is detected. -/
theorem document_gap_cases_witness :
    "governance_policy" ∈ keyDocTypes ∧
    (¬ ∃ doc ∈ [exampleDocument], doc.documentType = some "governance_policy") ∧
    ∃ g ∈ (detect (collect [exampleDocument])).1,
      g.type = "document" ∧ g.docType = some "governance_policy" ∧ g.severity = "medium" ∧
      ((detect (collect [exampleDocument])).1.length ≤ 5 →
        g ∈ (analyzeCompliance [exampleDocument] []).gaps) :=
  ⟨by decide, by simp [exampleDocument],
    (document_gap_cases [exampleDocument] [] "governance_policy" (by decide)).2
      (by simp [exampleDocument])⟩

/-! ## Order of the gaps -/

/-- C8: for every list of documents the returned gaps are the framework gaps of a
sublist `fs` of `CSRD, ISSB, GHG_Protocol, TCFD` (so in that relative order) followed
by the document gaps of a sublist `ds` of `governance_policy, environmental_data,
esg_report` (so in that relative order, and after every framework gap), and the
returned list is a prefix of the list of detected gaps. -/
theorem gaps_order (documents : List Document) (availableFrameworks : List String) :
    ∃ fs ds : List String,
      List.Sublist fs keyFrameworks ∧ List.Sublist ds keyDocTypes ∧
      (analyzeCompliance documents availableFrameworks).gaps =
        fs.map frameworkGap ++ ds.map documentGap ∧
      (∀ g ∈ fs.map frameworkGap, g.type = "framework") ∧
      (∀ g ∈ ds.map documentGap, g.type = "document") ∧
      (analyzeCompliance documents availableFrameworks).gaps <+: (detect (collect documents)).1 := by
  refine ⟨missingFrameworks (collect documents),
    (missingDocTypes (collect documents)).take
      (5 - (missingFrameworks (collect documents)).length), ?_, ?_, ?_, ?_, ?_, ?_⟩
  · exact List.filter_sublist _
  · exact (List.take_sublist _ _).trans (List.filter_sublist _)
  · exact gaps_eq documents availableFrameworks
  · intro g hg
    obtain ⟨x, -, rfl⟩ := List.mem_map.1 hg
    rfl
  · intro g hg
    obtain ⟨x, -, rfl⟩ := List.mem_map.1 hg
    rfl
  · show (detect (collect documents)).1.take 5 <+: _
    exact ⟨(detect (collect documents)).1.drop 5, List.take_append_drop _ _⟩

/-! ## Recommendations mirror the gaps -/

theorem detect_projections (c : Collected) :
    (detect c).2.map (fun r => (r.type, r.priority)) =
      (detect c).1.map (fun g => (g.type, g.severity)) := by
  rw [detect_gaps, detect_recommendations]
  simp only [List.map_append, List.map_map]
  rfl

theorem detect_lengths (c : Collected) : (detect c).2.length = (detect c).1.length := by
  simpa using congrArg List.length (detect_projections c)

/-- C9: for every list of documents the recommendations correspond position by
position to the detected gaps: there are `min(4, number of detected gaps)`
recommendations, and at every index `i` below that number `recommendations[i].type`
equals `gaps[i].type` and `recommendations[i].priority` equals `gaps[i].severity`. -/
theorem recommendations_mirror_gaps (documents : List Document)
    (availableFrameworks : List String) :
    (analyzeCompliance documents availableFrameworks).recommendations.length =
      min 4 (detect (collect documents)).1.length ∧
    ∀ i, i < (analyzeCompliance documents availableFrameworks).recommendations.length →
      ∃ r g, (analyzeCompliance documents availableFrameworks).recommendations[i]? = some r ∧
        (analyzeCompliance documents availableFrameworks).gaps[i]? = some g ∧
        r.type = g.type ∧ r.priority = g.severity := by
  have hlen : ((detect (collect documents)).2.take 4).length =
      min 4 (detect (collect documents)).1.length := by
    rw [List.length_take, detect_lengths]
  refine ⟨hlen, ?_⟩
  intro i hi
  have hi4 : i < min 4 (detect (collect documents)).1.length := hlen ▸ hi
  have hiG : i < (detect (collect documents)).1.length := by omega
  have hiR : i < (detect (collect documents)).2.length := by rw [detect_lengths]; exact hiG
  refine ⟨(detect (collect documents)).2[i], (detect (collect documents)).1[i], ?_, ?_, ?_⟩
  · show ((detect (collect documents)).2.take 4)[i]? = _
    rw [List.getElem?_take_of_lt (by omega), List.getElem?_eq_getElem hiR]
  · show ((detect (collect documents)).1.take 5)[i]? = _
    rw [List.getElem?_take_of_lt (by omega), List.getElem?_eq_getElem hiG]
  · have h := congrArg (fun l => l[i]?) (detect_projections (collect documents))
    simp only [List.getElem?_map, List.getElem?_eq_getElem hiR, List.getElem?_eq_getElem hiG,
      Option.map_some', Option.some.injEq, Prod.mk.injEq] at h
    exact h

/-- A witness for C9: in the single-document example the fourth recommendation
(index 3) has the type and the severity of the fourth gap, `document` and `medium`. -/
theorem recommendations_mirror_gaps_witness :
    3 < (analyzeCompliance [exampleDocument] []).recommendations.length ∧
    ∃ r g, (analyzeCompliance [exampleDocument] []).recommendations[3]? = some r ∧
      (analyzeCompliance [exampleDocument] []).gaps[3]? = some g ∧
      r.type = g.type ∧ r.priority = g.severity :=
  have h : 3 < (analyzeCompliance [exampleDocument] []).recommendations.length := by
    rw [(recommendations_mirror_gaps [exampleDocument] []).1, collect_exampleDocument]
    decide
  ⟨h, (recommendations_mirror_gaps [exampleDocument] []).2 3 h⟩

/-! ## The coverage map and the set of detected frameworks -/

theorem mapHas_iff (m : List (String × CoverageAcc)) (k : String) :
    mapHas m k = true ↔ k ∈ m.map Prod.fst := by
  simp only [mapHas, List.any_eq_true, beq_iff_eq, List.mem_map]

theorem mapModify_keys (m : List (String × CoverageAcc)) (k : String)
    (f : CoverageAcc → CoverageAcc) : (mapModify m k f).map Prod.fst = m.map Prod.fst := by
  induction m with
  | nil => rfl
  | cons kv rest ih =>
    unfold mapModify
    by_cases h : (kv.1 == k) = true
    · simp [h]
    · simp [h, ih]

theorem mapModify_values (m : List (String × CoverageAcc)) (k : String)
    (f : CoverageAcc → CoverageAcc) (hf : ∀ v, (f v).framework = v.framework)
    (hm : ∀ kv ∈ m, kv.2.framework = kv.1) :
    ∀ kv ∈ mapModify m k f, kv.2.framework = kv.1 := by
  induction m with
  | nil => intro kv hkv; simp [mapModify] at hkv
  | cons head rest ih =>
    have hrest : ∀ kv ∈ rest, kv.2.framework = kv.1 :=
      fun kv hkv => hm kv (List.mem_cons_of_mem _ hkv)
    have hhead : head.2.framework = head.1 := hm head (List.mem_cons_self _ _)
    intro kv hkv
    unfold mapModify at hkv
    by_cases h : (head.1 == k) = true
    · simp only [h, if_true, List.mem_cons] at hkv
      rcases hkv with rfl | hkv
      · simpa [hf] using hhead
      · exact hrest kv hkv
    · simp only [h, if_false, List.mem_cons, Bool.false_eq_true] at hkv
      rcases hkv with rfl | hkv
      · exact hhead
      · exact ih hrest kv hkv

theorem foldAssociation_linked (st : Collected) (fw : FrameworkAssociation)
    (h : st.Linked) : (foldAssociation st fw).Linked := by
  obtain ⟨hkeys, hvals⟩ := h
  have hbump : ∀ v, (bumpCoverage fw v).framework = v.framework := fun _ => rfl
  unfold foldAssociation Collected.Linked
  by_cases hhas : mapHas st.frameworkCoverage fw.framework = true
  · have hin : fw.framework ∈ st.detectedFrameworks := hkeys ▸ (mapHas_iff _ _).1 hhas
    have hset : setHas st.detectedFrameworks fw.framework = true := (setHas_iff _ _).2 hin
    simp only [hhas, Bool.not_true, Bool.false_eq_true, if_false, mapModify_keys, setAdd, hset,
      if_true]
    exact ⟨hkeys, mapModify_values _ _ _ hbump hvals⟩
  · have hout : fw.framework ∉ st.detectedFrameworks :=
      fun hin => hhas ((mapHas_iff _ _).2 (hkeys ▸ hin))
    have hset : ¬ setHas st.detectedFrameworks fw.framework = true :=
      fun hs => hout ((setHas_iff _ _).1 hs)
    simp only [hhas, Bool.not_false, if_true, mapSet, if_false, Bool.false_eq_true,
      mapModify_keys, List.map_append, List.map_cons, List.map_nil, setAdd, hset, hkeys]
    refine ⟨trivial, mapModify_values _ _ _ hbump ?_⟩
    intro kv hkv
    rcases List.mem_append.1 hkv with hkv | hkv
    · exact hvals kv hkv
    · rw [List.mem_singleton.1 hkv]

theorem foldl_foldAssociation_linked (fws : List FrameworkAssociation) (st : Collected)
    (h : st.Linked) : (fws.foldl foldAssociation st).Linked := by
  induction fws generalizing st with
  | nil => exact h
  | cons fw rest ih => exact ih _ (foldAssociation_linked st fw h)

theorem foldDocument_linked (st : Collected) (doc : Document) (h : st.Linked) :
    (foldDocument st doc).Linked := by
  unfold foldDocument
  cases doc.complianceFrameworks <;> cases truthyString doc.documentType <;>
    first
      | exact h
      | exact foldl_foldAssociation_linked _ _ h

theorem collect_linked (documents : List Document) : (collect documents).Linked := by
  unfold collect
  have h0 : Collected.empty.Linked := ⟨rfl, fun kv hkv => by simp [Collected.empty] at hkv⟩
  generalize Collected.empty = st at h0
  induction documents generalizing st with
  | nil => exact h0
  | cons doc rest ih => exact ih _ (foldDocument_linked st doc h0)

/-- The framework names of the coverage table are the detected frameworks, in the
same order. -/
theorem coverage_names (documents : List Document) (fw : List String) :
    (analyzeCompliance documents fw).frameworkCoverage.map (fun e => e.framework) =
      (collect documents).detectedFrameworks := by
  obtain ⟨hkeys, hvals⟩ := collect_linked documents
  show (coverageArray (collect documents)).map _ = _
  rw [← hkeys]
  unfold coverageArray
  simp only [List.map_map]
  apply List.map_congr_left
  intro kv hkv
  exact hvals kv hkv

/-- C10: for every list of documents the coverage table has as many entries as there
are distinct framework identifiers in the documents' `complianceFrameworks`, and no
two entries name the same framework. -/
theorem coverage_length_distinct (documents : List Document) (availableFrameworks : List String) :
    (analyzeCompliance documents availableFrameworks).frameworkCoverage.length =
      (frameworkNames documents).toFinset.card ∧
    ((analyzeCompliance documents availableFrameworks).frameworkCoverage.map
      (fun e => e.framework)).Nodup := by
  have h := coverage_names documents availableFrameworks
  constructor
  · rw [← length_foldl_setAdd, ← collect_detected, ← h, List.length_map]
  · rw [h, collect_detected]
    exact nodup_foldl_setAdd _ _ List.nodup_nil

/-! ## First-seen order of the coverage table -/

theorem foldl_setAdd_eq (l s : List String) :
    l.foldl setAdd s = s ++ (firstOccurrences l).filter (fun y => decide (y ∉ s)) := by
  induction l generalizing s with
  | nil => simp [firstOccurrences]
  | cons x xs ih =>
    rw [List.foldl_cons, ih]
    unfold setAdd
    by_cases hx : x ∈ s
    · have hs : setHas s x = true := (setHas_iff s x).2 hx
      simp only [hs, if_true, firstOccurrences, List.filter_cons, hx, not_true_eq_false,
        decide_False, Bool.false_eq_true, if_false, List.filter_filter]
      congr 1
      apply List.filter_congr
      intro y _
      by_cases hy : y ∈ s
      · simp [hy]
      · have : y ≠ x := fun h => hy (h ▸ hx)
        simp [hy, this]
    · have hs : ¬ setHas s x = true := fun h => hx ((setHas_iff s x).1 h)
      simp only [hs, if_false, firstOccurrences, List.filter_cons, hx, not_false_eq_true,
        decide_True, if_true, List.filter_filter, List.append_assoc, List.singleton_append,
        Bool.false_eq_true]
      congr 2
      apply List.filter_congr
      intro y _
      by_cases hy : y ∈ s <;> by_cases hyx : y = x <;> simp [hy, hyx]

theorem foldl_setAdd_nil (l : List String) : l.foldl setAdd [] = firstOccurrences l := by
  rw [foldl_setAdd_eq]; simp

/-- C11: for every list of documents the sequence of framework names of the
coverage table is the sequence of framework identifiers met when traversing the
documents in order and each document's associations in order, every identifier kept
only at its first occurrence. -/
theorem coverage_first_seen_order (documents : List Document)
    (availableFrameworks : List String) :
    (analyzeCompliance documents availableFrameworks).frameworkCoverage.map
        (fun e => e.framework) =
      firstOccurrences (frameworkNames documents) := by
  rw [coverage_names, collect_detected, foldl_setAdd_nil]

/-! ## The values of the coverage map -/

theorem contributions_append (seen : List FrameworkAssociation) (fw : FrameworkAssociation)
    (k : String) :
    contributions (seen ++ [fw]) k =
      contributions seen k ++
        (if fw.framework = k then [relevanceOrDefault fw.relevanceScore] else []) := by
  unfold contributions
  by_cases h : fw.framework = k <;> simp [List.filter_append, List.filter_cons, h]

theorem contributions_eq_nil (seen : List FrameworkAssociation) (k : String)
    (h : ∀ a ∈ seen, a.framework ≠ k) : contributions seen k = [] := by
  unfold contributions
  rw [List.map_eq_nil_iff, List.filter_eq_nil_iff]
  intro a ha
  simpa using h a ha

theorem contributions_ne_nil (seen : List FrameworkAssociation) (k : String)
    (h : k ∈ seen.map (fun a => a.framework)) : 1 ≤ (contributions seen k).length := by
  obtain ⟨a, ha, rfl⟩ := List.mem_map.1 h
  unfold contributions
  rw [List.length_map]
  exact List.length_pos_of_mem (List.mem_filter.2 ⟨ha, by simp⟩)

theorem mem_mapModify (m : List (String × CoverageAcc)) (k : String)
    (f : CoverageAcc → CoverageAcc) (hm : (m.map Prod.fst).Nodup)
    (kv' : String × CoverageAcc) (h : kv' ∈ mapModify m k f) :
    ∃ kv ∈ m, kv' = (kv.1, if kv.1 = k then f kv.2 else kv.2) := by
  induction m with
  | nil => simp [mapModify] at h
  | cons head rest ih =>
    rw [List.map_cons, List.nodup_cons] at hm
    unfold mapModify at h
    by_cases hk : head.1 = k
    · simp only [hk, beq_self_eq_true, if_true, List.mem_cons] at h
      rcases h with rfl | h
      · exact ⟨head, List.mem_cons_self _ _, by simp [hk]⟩
      · refine ⟨kv', List.mem_cons_of_mem _ h, ?_⟩
        have hne : kv'.1 ≠ k := by
          intro he
          exact hm.1 (List.mem_map.2 ⟨kv', h, by rw [he, hk]⟩)
        simp [hne]
    · have hb : (head.1 == k) = false := by simpa using hk
      simp only [hb, Bool.false_eq_true, if_false, List.mem_cons] at h
      rcases h with rfl | h
      · exact ⟨kv', List.mem_cons_self _ _, by simp [hk]⟩
      · obtain ⟨kv, hkv, heq⟩ := ih hm.2 h
        exact ⟨kv, List.mem_cons_of_mem _ hkv, heq⟩

theorem tallied_bump (m : List (String × CoverageAcc)) (seen : List FrameworkAssociation)
    (fw : FrameworkAssociation) (h : Tallied m seen)
    (hk : fw.framework ∈ m.map Prod.fst) :
    Tallied (mapModify m fw.framework (bumpCoverage fw)) (seen ++ [fw]) := by
  obtain ⟨hnd, hseen, hvals⟩ := h
  refine ⟨by rw [mapModify_keys]; exact hnd, ?_, ?_⟩
  · intro a ha
    rw [mapModify_keys]
    rcases List.mem_append.1 ha with ha | ha
    · exact hseen a ha
    · rw [List.mem_singleton.1 ha]; exact hk
  · intro kv' hkv'
    obtain ⟨kv, hkv, rfl⟩ := mem_mapModify m _ _ hnd kv' hkv'
    obtain ⟨hd, ht, ha⟩ := hvals kv hkv
    by_cases hkey : kv.1 = fw.framework
    · have hkey' : fw.framework = kv.1 := hkey.symm
      simp only [hkey, if_true, contributions_append, bumpCoverage, List.length_append,
        List.length_singleton, List.sum_append, List.sum_singleton]
      rw [hkey] at hd ht
      exact ⟨by rw [hd], by rw [ht], trivial⟩
    · have hkey' : ¬ fw.framework = kv.1 := fun e => hkey e.symm
      simp only [hkey, if_false, contributions_append, hkey', List.append_nil]
      exact ⟨hd, ht, ha⟩

theorem tallied_insert (m : List (String × CoverageAcc)) (seen : List FrameworkAssociation)
    (k : String) (h : Tallied m seen) (hk : k ∉ m.map Prod.fst) :
    Tallied
      (m ++ [(k, { framework := k, documents := 0, avgRelevance := 0, totalRelevance := 0 })])
      seen := by
  obtain ⟨hnd, hseen, hvals⟩ := h
  have hnone : contributions seen k = [] :=
    contributions_eq_nil seen k (fun a ha e => hk (e ▸ hseen a ha))
  refine ⟨?_, ?_, ?_⟩
  · rw [List.map_append]
    exact List.Nodup.append hnd (List.nodup_singleton k) (by simpa using hk)
  · intro a ha
    rw [List.map_append]
    exact List.mem_append_left _ (hseen a ha)
  · intro kv hkv
    rcases List.mem_append.1 hkv with hkv | hkv
    · exact hvals kv hkv
    · rw [List.mem_singleton.1 hkv]
      simp [hnone]

theorem foldAssociation_tallied (st : Collected) (seen : List FrameworkAssociation)
    (fw : FrameworkAssociation) (h : Tallied st.frameworkCoverage seen) :
    Tallied (foldAssociation st fw).frameworkCoverage (seen ++ [fw]) := by
  unfold foldAssociation
  by_cases hhas : mapHas st.frameworkCoverage fw.framework = true
  · simp only [hhas, Bool.not_true, Bool.false_eq_true, if_false]
    exact tallied_bump _ _ _ h ((mapHas_iff _ _).1 hhas)
  · have hk : fw.framework ∉ st.frameworkCoverage.map Prod.fst :=
      fun hin => hhas ((mapHas_iff _ _).2 hin)
    simp only [hhas, Bool.not_false, if_true, mapSet, if_false, Bool.false_eq_true]
    apply tallied_bump _ _ _ (tallied_insert _ _ _ h hk)
    simp

theorem foldl_foldAssociation_tallied (fws : List FrameworkAssociation) (st : Collected)
    (seen : List FrameworkAssociation) (h : Tallied st.frameworkCoverage seen) :
    Tallied (fws.foldl foldAssociation st).frameworkCoverage (seen ++ fws) := by
  induction fws generalizing st seen with
  | nil => simpa using h
  | cons fw rest ih =>
    have := ih (foldAssociation st fw) (seen ++ [fw]) (foldAssociation_tallied st seen fw h)
    simpa using this

theorem foldDocument_tallied (st : Collected) (seen : List FrameworkAssociation)
    (doc : Document) (h : Tallied st.frameworkCoverage seen) :
    Tallied (foldDocument st doc).frameworkCoverage (seen ++ docAssociations doc) := by
  unfold foldDocument docAssociations
  cases doc.complianceFrameworks <;> cases truthyString doc.documentType
  · simpa using h
  · simpa using h
  · exact foldl_foldAssociation_tallied _ _ _ h
  · exact foldl_foldAssociation_tallied _ _ _ h

theorem foldl_foldDocument_tallied (documents : List Document) (st : Collected)
    (seen : List FrameworkAssociation) (h : Tallied st.frameworkCoverage seen) :
    Tallied (documents.foldl foldDocument st).frameworkCoverage
      (seen ++ associations documents) := by
  induction documents generalizing st seen with
  | nil => simpa [associations] using h
  | cons doc rest ih =>
    have := ih (foldDocument st doc) (seen ++ docAssociations doc)
      (foldDocument_tallied st seen doc h)
    simpa [associations, List.flatMap_cons] using this

/-- After the loop every value of the coverage map counts and sums the contributions
of all associations of its key. -/
theorem collect_tallied (documents : List Document) :
    Tallied (collect documents).frameworkCoverage (associations documents) := by
  have h0 : Tallied Collected.empty.frameworkCoverage [] := by
    simp [Tallied, Collected.empty]
  simpa using foldl_foldDocument_tallied documents Collected.empty [] h0

/-- Every entry of the returned coverage table is the image of a map value that
names a framework of the documents and counts and sums its contributions. -/
theorem mem_coverage (documents : List Document) (fw : List String) (e : CoverageEntry)
    (he : e ∈ (analyzeCompliance documents fw).frameworkCoverage) :
    ∃ v : CoverageAcc, e = toCoverageEntry v ∧
      v.framework ∈ frameworkNames documents ∧
      v.documents = (contributions (associations documents) v.framework).length ∧
      v.totalRelevance = (contributions (associations documents) v.framework).sum ∧
      v.avgRelevance = v.totalRelevance / (v.documents : ℚ) ∧
      1 ≤ v.documents := by
  have he' : e ∈ coverageArray (collect documents) := he
  unfold coverageArray at he'
  obtain ⟨v, hv, rfl⟩ := List.mem_map.1 he'
  obtain ⟨kv, hkv, rfl⟩ := List.mem_map.1 hv
  obtain ⟨hkeys, hvals⟩ := collect_linked documents
  obtain ⟨-, -, htally⟩ := collect_tallied documents
  obtain ⟨hd, ht, ha⟩ := htally kv hkv
  have hname : kv.2.framework = kv.1 := hvals kv hkv
  have hmem : kv.1 ∈ frameworkNames documents := by
    rw [← mem_collect_detected, ← hkeys]
    exact List.mem_map.2 ⟨kv, hkv, rfl⟩
  refine ⟨kv.2, rfl, ?_, ?_, ?_, ha, ?_⟩
  · rw [hname]; exact hmem
  · rw [hname]; exact hd
  · rw [hname]; exact ht
  · rw [hd]; exact contributions_ne_nil _ _ hmem

theorem coverage_exampleDocument (fw : List String) :
    (analyzeCompliance [exampleDocument] fw).frameworkCoverage = [exampleEntry] := by
  show coverageArray (collect [exampleDocument]) = _
  rw [collect_exampleDocument]
  simp only [coverageArray, List.map_cons, List.map_nil, toCoverageEntry, exampleEntry]
  norm_num

/-! ## Relevance contributions: default and range -/

theorem collect_single (k : String) (r : Option ℚ) :
    collect [{ documentType := none
               complianceFrameworks := some [{ framework := k, relevanceScore := r }] }] =
      { frameworkCoverage :=
          [(k, { framework := k, documents := 1,
                 avgRelevance := (0 + relevanceOrDefault r) / ((0 + 1 : ℕ) : ℚ),
                 totalRelevance := 0 + relevanceOrDefault r })]
        documentTypes := []
        detectedFrameworks := [k] } := by
  simp [collect, foldDocument, truthyString, foldAssociation, setAdd, setHas,
    mapHas, mapSet, mapModify, bumpCoverage, Collected.empty]

/-- C13, the code at the failing input: an association whose relevance score is
present and equal to `0` contributes `0.5` (line 63 uses `||`, for which `0` is
falsy), so the entry has total and average relevance `1/2` and status `fair`. -/
theorem zero_relevance_counted_as_default :
    relevanceOrDefault (some 0) = 1 / 2 ∧
    (analyzeCompliance [zeroRelevanceDocument] []).frameworkCoverage.map
        (fun e => (e.framework, e.documents, e.totalRelevance, e.avgRelevance, e.status)) =
      [("CSRD", 1, 1 / 2, 1 / 2, "fair")] := by
  have h : relevanceOrDefault (some 0) = 1 / 2 := by simp [relevanceOrDefault]
  refine ⟨h, ?_⟩
  show (coverageArray (collect [zeroRelevanceDocument])).map _ = _
  unfold zeroRelevanceDocument
  rw [collect_single, h]
  simp only [coverageArray, List.map_cons, List.map_nil, toCoverageEntry]
  norm_num

theorem relevanceOrDefault_range (r : Option ℚ)
    (h : ∀ x, r = some x → 0 ≤ x ∧ x ≤ 1) :
    0 ≤ relevanceOrDefault r ∧ relevanceOrDefault r ≤ 1 := by
  cases r with
  | none => simp only [relevanceOrDefault]; norm_num
  | some x =>
    obtain ⟨h0, h1⟩ := h x rfl
    simp only [relevanceOrDefault]
    by_cases hx : x = 0
    · simp only [hx, if_true]; norm_num
    · simp only [hx, if_false]; exact ⟨h0, h1⟩

/-! ## Completeness and status -/

/-- C15: for every list of documents and every entry of the coverage table,
`completeness = min(25 * document count, 100)`; hence it is one of 25, 50, 75, 100. -/
theorem completeness_values (documents : List Document) (availableFrameworks : List String)
    (e : CoverageEntry)
    (he : e ∈ (analyzeCompliance documents availableFrameworks).frameworkCoverage) :
    e.completeness = min (25 * e.documents) 100 ∧
    (e.completeness = 25 ∨ e.completeness = 50 ∨ e.completeness = 75 ∨
      e.completeness = 100) := by
  obtain ⟨v, rfl, -, -, -, -, h1⟩ := mem_coverage documents availableFrameworks e he
  have hc : (toCoverageEntry v).completeness = min (v.documents * 25) 100 := rfl
  have hd : (toCoverageEntry v).documents = v.documents := rfl
  rw [hc, hd]
  constructor
  · rw [Nat.mul_comm]
  · rcases Nat.lt_or_ge v.documents 4 with h4 | h4
    · have : v.documents = 1 ∨ v.documents = 2 ∨ v.documents = 3 := by omega
      rcases this with h | h | h <;> rw [h] <;> decide
    · right; right; right
      exact Nat.min_eq_right (by omega)

/-- A witness for C15: the `CSRD` entry of the single-document example has
completeness 25. -/
theorem completeness_values_witness :
    exampleEntry ∈ (analyzeCompliance [exampleDocument] []).frameworkCoverage ∧
    exampleEntry.completeness = min (25 * exampleEntry.documents) 100 ∧
    (exampleEntry.completeness = 25 ∨ exampleEntry.completeness = 50 ∨
      exampleEntry.completeness = 75 ∨ exampleEntry.completeness = 100) :=
  have h : exampleEntry ∈ (analyzeCompliance [exampleDocument] []).frameworkCoverage := by
    rw [coverage_exampleDocument]; exact List.mem_singleton.2 rfl
  ⟨h, completeness_values [exampleDocument] [] exampleEntry h⟩

/-- C16: for every list of documents and every entry of the coverage table, the
status is `good` if the average relevance is strictly greater than 0.7, `fair` if it
is strictly greater than 0.4 and at most 0.7, and `poor` otherwise; so an average of
exactly 0.7 gives `fair` and of exactly 0.4 gives `poor`. -/
theorem status_thresholds (documents : List Document) (availableFrameworks : List String)
    (e : CoverageEntry)
    (he : e ∈ (analyzeCompliance documents availableFrameworks).frameworkCoverage) :
    (7 / 10 < e.avgRelevance → e.status = "good") ∧
    (4 / 10 < e.avgRelevance → e.avgRelevance ≤ 7 / 10 → e.status = "fair") ∧
    (e.avgRelevance ≤ 4 / 10 → e.status = "poor") := by
  obtain ⟨v, rfl, -⟩ := mem_coverage documents availableFrameworks e he
  have hs : (toCoverageEntry v).status =
      if v.avgRelevance > 7 / 10 then "good"
      else if v.avgRelevance > 4 / 10 then "fair" else "poor" := rfl
  have ha : (toCoverageEntry v).avgRelevance = v.avgRelevance := rfl
  rw [hs, ha]
  refine ⟨?_, ?_, ?_⟩
  · intro h; rw [if_pos h]
  · intro h4 h7; rw [if_neg (not_lt.2 h7), if_pos h4]
  · intro h4
    have h7 : v.avgRelevance ≤ 7 / 10 := h4.trans (by norm_num)
    rw [if_neg (not_lt.2 h7), if_neg (not_lt.2 h4)]

/-- A witness for C16: the `CSRD` entry of the single-document example has average
relevance `0.9 > 0.7` and status `good`. -/
theorem status_thresholds_witness :
    exampleEntry ∈ (analyzeCompliance [exampleDocument] []).frameworkCoverage ∧
    7 / 10 < exampleEntry.avgRelevance ∧ exampleEntry.status = "good" :=
  have h : exampleEntry ∈ (analyzeCompliance [exampleDocument] []).frameworkCoverage := by
    rw [coverage_exampleDocument]; exact List.mem_singleton.2 rfl
  have h7 : 7 / 10 < exampleEntry.avgRelevance := by
    show (7 : ℚ) / 10 < 9 / 10
    norm_num
  ⟨h, h7, (status_thresholds [exampleDocument] [] exampleEntry h).1 h7⟩

/-! ## The `frameworks` argument -/

/-- C17: the `frameworks` argument has no influence on the result: for every list of
documents and any two frameworks lists the results are equal, and the gaps are
determined by the canonical lists and the documents alone. -/
theorem frameworks_argument_ignored (documents : List Document) (fw1 fw2 : List String) :
    analyzeCompliance documents fw1 = analyzeCompliance documents fw2 ∧
    (analyzeCompliance documents fw1).gaps =
      ((keyFrameworks.filter
          (fun f => !(setHas (collect documents).detectedFrameworks f))).map frameworkGap ++
        (keyDocTypes.filter
          (fun t => !(setHas (collect documents).documentTypes t))).map documentGap).take 5 := by
  refine ⟨rfl, ?_⟩
  show (detect (collect documents)).1.take 5 = _
  rw [detect_gaps]
  rfl

/-! ## Monotonicity of the scores -/

theorem length_le_foldl_setAdd (l s : List String) : s.length ≤ (l.foldl setAdd s).length := by
  induction l generalizing s with
  | nil => exact Nat.le_refl _
  | cons x xs ih =>
    refine Nat.le_trans ?_ (ih (setAdd s x))
    unfold setAdd
    by_cases h : setHas s x = true <;> simp [h]

theorem collect_append_singleton (ds : List Document) (d : Document) :
    collect (ds ++ [d]) = foldDocument (collect ds) d := by
  simp [collect, List.foldl_append]

/-- C18: for every list of documents `ds` and every document `d`, each of the three
sub-scores, and the overall score, computed for `ds` with `d` appended is at least the
value computed for `ds`. -/
theorem scores_monotone (ds : List Document) (d : Document) (availableFrameworks : List String) :
    documentScore ds ≤ documentScore (ds ++ [d]) ∧
    frameworkScore (collect ds) ≤ frameworkScore (collect (ds ++ [d])) ∧
    diversityScore (collect ds) ≤ diversityScore (collect (ds ++ [d])) ∧
    (analyzeCompliance ds availableFrameworks).overallScore ≤
      (analyzeCompliance (ds ++ [d]) availableFrameworks).overallScore := by
  have hdoc : documentScore ds ≤ documentScore (ds ++ [d]) := by
    unfold documentScore
    rw [List.length_append, List.length_singleton]
    omega
  have hfw : frameworkScore (collect ds) ≤ frameworkScore (collect (ds ++ [d])) := by
    unfold frameworkScore
    rw [collect_append_singleton, foldDocument_detected]
    have := length_le_foldl_setAdd ((docAssociations d).map (fun fw => fw.framework))
      (collect ds).detectedFrameworks
    omega
  have hdiv : diversityScore (collect ds) ≤ diversityScore (collect (ds ++ [d])) := by
    unfold diversityScore
    rw [collect_append_singleton, foldDocument_documentTypes]
    have := length_le_foldl_setAdd (truthyString d.documentType).toList
      (collect ds).documentTypes
    omega
  refine ⟨hdoc, hfw, hdiv, ?_⟩
  show min (rawScore ds (collect ds)) 100 ≤ min (rawScore (ds ++ [d]) (collect (ds ++ [d]))) 100
  unfold rawScore
  omega

/-! ## The dashboard score -/

theorem dashboard_foldl_fst (documents : List Document) (st : List String × List String) :
    (documents.foldl Dashboard.foldDocument st).1 =
      (frameworkNames documents).foldl setAdd st.1 := by
  induction documents generalizing st with
  | nil => rfl
  | cons doc rest ih =>
    rw [List.foldl_cons, ih]
    simp only [frameworkNames, associations, List.flatMap_cons, List.map_append,
      List.foldl_append]
    congr 1
    unfold Dashboard.foldDocument docAssociations
    cases doc.complianceFrameworks <;> simp [List.foldl_map]

theorem dashboard_foldl_snd (documents : List Document) (st : List String × List String) :
    (documents.foldl Dashboard.foldDocument st).2 =
      (nonEmptyDocumentTypes documents).foldl setAdd st.2 := by
  induction documents generalizing st with
  | nil => rfl
  | cons doc rest ih =>
    rw [List.foldl_cons, ih]
    unfold Dashboard.foldDocument nonEmptyDocumentTypes
    simp only [List.filterMap_cons]
    cases truthyString doc.documentType <;> simp

/-- C19, as stated, fails: for two documents of the same type `esg_report` carrying
`CSRD` the dashboard returns `15 + 10 + 10 = 35`, its `documentScore` term counting
one document type, while the claimed formula over two documents gives `45`. -/
theorem dashboard_document_count_counterexample :
    Dashboard.calculateComplianceScore [exampleDocument, exampleDocument] ≠
      min (min (15 * (frameworkNames [exampleDocument, exampleDocument]).toFinset.card) 60 +
        min (10 * [exampleDocument, exampleDocument].length) 30 +
        (if [exampleDocument, exampleDocument].length > 0 then 10 else 0)) 100 := by
  decide

/-- C19, amended: for every list of documents with `n` documents, `f` distinct
framework identifiers and `t` distinct non-empty `documentType` values, the dashboard
returns `min(min(15*f, 60) + min(10*t, 30) + (10 if n > 0 else 0), 100)`; its
`documentScore` term counts document types, not documents. -/
theorem dashboard_score_formula (documents : List Document) :
    Dashboard.calculateComplianceScore documents =
      min (min (15 * (frameworkNames documents).toFinset.card) 60 +
        min (10 * (nonEmptyDocumentTypes documents).toFinset.card) 30 +
        (if documents.length > 0 then 10 else 0)) 100 := by
  unfold Dashboard.calculateComplianceScore
  by_cases h : documents.length = 0
  · have hnil : documents = [] := List.length_eq_zero.1 h
    subst hnil
    decide
  · simp only [h, if_false, dashboard_foldl_fst, dashboard_foldl_snd, length_foldl_setAdd]
    simp only [Nat.mul_comm]

/-- C20: the two scoring formulas are not equivalent: for the single-document example
the dashboard returns 35 and the insights analysis returns 24. -/
theorem scoring_formulas_differ :
    ∃ documents : List Document, ∀ availableFrameworks : List String,
      Dashboard.calculateComplianceScore documents ≠
        (analyzeCompliance documents availableFrameworks).overallScore := by
  refine ⟨[exampleDocument], fun availableFrameworks => ?_⟩
  have h : (analyzeCompliance [exampleDocument] availableFrameworks).overallScore = 24 := by
    show min (rawScore [exampleDocument] (collect [exampleDocument])) 100 = 24
    rw [collect_exampleDocument]; decide
  rw [h]
  decide

/-! ## Truncation and severity -/

theorem high_gap_retained (documents : List Document) (fw : List String) (g : Gap)
    (hg : g ∈ (detect (collect documents)).1) (hs : g.severity = "high") :
    g ∈ (analyzeCompliance documents fw).gaps := by
  rw [detect_gaps] at hg
  rcases List.mem_append.1 hg with hg | hg
  · rw [gaps_eq]; exact List.mem_append_left _ hg
  · obtain ⟨x, -, rfl⟩ := List.mem_map.1 hg
    exact absurd (show "medium" = "high" from hs) (by decide)

/-- C21, as stated, fails: there is no list of documents for which a detected gap of
severity `high` is absent from the returned gaps while a gap of severity `medium` is
retained; the cap of five only ever cuts document gaps, which come last. -/
theorem no_high_gap_dropped_counterexample :
    ¬ ∃ (documents : List Document) (availableFrameworks : List String),
        (∃ g ∈ (detect (collect documents)).1, g.severity = "high" ∧
          g ∉ (analyzeCompliance documents availableFrameworks).gaps) ∧
        (∃ g ∈ (analyzeCompliance documents availableFrameworks).gaps,
          g.severity = "medium") := by
  rintro ⟨documents, fw, ⟨g, hg, hs, hout⟩, -⟩
  exact hout (high_gap_retained documents fw g hg hs)

/-- C21, amended: detection-order truncation never drops a gap of severity `high`:
for every list of documents every detected gap of severity `high` is among the
returned gaps, and every detected gap that is not returned has severity `medium`. -/
theorem truncation_keeps_high_gaps (documents : List Document)
    (availableFrameworks : List String) (g : Gap)
    (hg : g ∈ (detect (collect documents)).1) :
    (g.severity = "high" → g ∈ (analyzeCompliance documents availableFrameworks).gaps) ∧
    (g ∉ (analyzeCompliance documents availableFrameworks).gaps → g.severity = "medium") := by
  refine ⟨high_gap_retained documents availableFrameworks g hg, ?_⟩
  intro hout
  rw [detect_gaps] at hg
  rcases List.mem_append.1 hg with hg | hg
  · exact absurd (by rw [gaps_eq]; exact List.mem_append_left _ hg) hout
  · obtain ⟨x, -, rfl⟩ := List.mem_map.1 hg
    rfl

/-- A witness for the amended C21: for the empty document list the framework gap for
`TCFD` is detected and returned, and the document gap for `esg_report` is detected,
cut off by the cap, and of severity `medium`. -/
theorem truncation_keeps_high_gaps_witness :
    (frameworkGap "TCFD" ∈ (detect (collect [])).1 ∧
      frameworkGap "TCFD" ∈ (analyzeCompliance [] []).gaps) ∧
    (documentGap "esg_report" ∈ (detect (collect [])).1 ∧
      documentGap "esg_report" ∉ (analyzeCompliance [] []).gaps ∧
      (documentGap "esg_report").severity = "medium") :=
  have h1 : frameworkGap "TCFD" ∈ (detect (collect [])).1 := by decide
  have h2 : documentGap "esg_report" ∈ (detect (collect [])).1 := by decide
  have h3 : documentGap "esg_report" ∉ (analyzeCompliance [] []).gaps := by decide
  ⟨⟨h1, (truncation_keeps_high_gaps [] [] _ h1).1 rfl⟩,
    ⟨h2, h3, (truncation_keeps_high_gaps [] [] _ h2).2 h3⟩⟩

/-! ## Absent optional fields -/

theorem foldDocument_bare (st : Collected) (d : Document)
    (ht : d.documentType = none) (hf : d.complianceFrameworks = none) :
    foldDocument st d = st := by
  unfold foldDocument
  simp [ht, hf, truthyString]

/-- C22: for every list of documents `ds` and every document `d` that has neither a
`documentType` nor a `complianceFrameworks` field, `analyzeCompliance` on `ds` with
`d` appended returns a result whose coverage table, gaps and recommendations equal
those for `ds`; the score differs only through the `documentScore` of one more
document. -/
theorem absent_fields_tolerated (ds : List Document) (d : Document)
    (availableFrameworks : List String)
    (ht : d.documentType = none) (hf : d.complianceFrameworks = none) :
    (analyzeCompliance (ds ++ [d]) availableFrameworks).frameworkCoverage =
      (analyzeCompliance ds availableFrameworks).frameworkCoverage ∧
    (analyzeCompliance (ds ++ [d]) availableFrameworks).gaps =
      (analyzeCompliance ds availableFrameworks).gaps ∧
    (analyzeCompliance (ds ++ [d]) availableFrameworks).recommendations =
      (analyzeCompliance ds availableFrameworks).recommendations ∧
    (analyzeCompliance (ds ++ [d]) availableFrameworks).overallScore =
      min (min ((ds.length + 1) * 5) 30 + frameworkScore (collect ds) +
        diversityScore (collect ds)) 100 := by
  have hc : collect (ds ++ [d]) = collect ds := by
    rw [collect_append_singleton, foldDocument_bare _ _ ht hf]
  refine ⟨?_, ?_, ?_, ?_⟩
  · show coverageArray (collect (ds ++ [d])) = coverageArray (collect ds)
    rw [hc]
  · show (detect (collect (ds ++ [d]))).1.take 5 = (detect (collect ds)).1.take 5
    rw [hc]
  · show (detect (collect (ds ++ [d]))).2.take 4 = (detect (collect ds)).2.take 4
    rw [hc]
  · show min (rawScore (ds ++ [d]) (collect (ds ++ [d]))) 100 = _
    rw [hc]
    simp [rawScore, documentScore]

/-- A witness for C22: the bare document appended to the single-document example. -/
theorem absent_fields_tolerated_witness :
    bareDocument.documentType = none ∧ bareDocument.complianceFrameworks = none ∧
    (analyzeCompliance ([exampleDocument] ++ [bareDocument]) []).frameworkCoverage =
      (analyzeCompliance [exampleDocument] []).frameworkCoverage ∧
    (analyzeCompliance ([exampleDocument] ++ [bareDocument]) []).gaps =
      (analyzeCompliance [exampleDocument] []).gaps ∧
    (analyzeCompliance ([exampleDocument] ++ [bareDocument]) []).recommendations =
      (analyzeCompliance [exampleDocument] []).recommendations ∧
    (analyzeCompliance ([exampleDocument] ++ [bareDocument]) []).overallScore =
      min (min (([exampleDocument].length + 1) * 5) 30 +
        frameworkScore (collect [exampleDocument]) +
        diversityScore (collect [exampleDocument])) 100 :=
  ⟨rfl, rfl, absent_fields_tolerated [exampleDocument] bareDocument [] rfl rfl⟩

/-! ## The final cap, and the dashboard score by cases -/

theorem dashboard_score_nonempty (documents : List Document) (h : documents ≠ []) :
    Dashboard.calculateComplianceScore documents =
      min (min ((documents.foldl Dashboard.foldDocument ([], [])).1.length * 15) 60 +
        min ((documents.foldl Dashboard.foldDocument ([], [])).2.length * 10) 30 + 10) 100 := by
  have hlen : documents.length ≠ 0 := fun h0 => h (List.length_eq_zero.1 h0)
  have hpos : documents.length > 0 := Nat.pos_of_ne_zero hlen
  unfold Dashboard.calculateComplianceScore
  simp only [hlen, if_false, hpos, if_true]

/-- C25: in both scoring variants the final cap at 100 never changes the value: the
three insights sub-scores sum to at most 100 and `overallScore` equals their sum; the
three dashboard terms sum to at most 100 and, for a non-empty list, the dashboard
score equals their sum. -/
theorem final_cap_is_identity (documents : List Document) (availableFrameworks : List String) :
    documentScore documents + frameworkScore (collect documents) +
        diversityScore (collect documents) ≤ 100 ∧
    (analyzeCompliance documents availableFrameworks).overallScore =
      documentScore documents + frameworkScore (collect documents) +
        diversityScore (collect documents) ∧
    min ((documents.foldl Dashboard.foldDocument ([], [])).1.length * 15) 60 +
        min ((documents.foldl Dashboard.foldDocument ([], [])).2.length * 10) 30 +
        (if documents.length > 0 then 10 else 0) ≤ 100 ∧
    Dashboard.calculateComplianceScore documents =
      (if documents.length = 0 then 0
       else min ((documents.foldl Dashboard.foldDocument ([], [])).1.length * 15) 60 +
        min ((documents.foldl Dashboard.foldDocument ([], [])).2.length * 10) 30 +
        (if documents.length > 0 then 10 else 0)) := by
  have h1 : documentScore documents + frameworkScore (collect documents) +
      diversityScore (collect documents) ≤ 100 := by
    unfold documentScore frameworkScore diversityScore
    omega
  have h3 : min ((documents.foldl Dashboard.foldDocument ([], [])).1.length * 15) 60 +
      min ((documents.foldl Dashboard.foldDocument ([], [])).2.length * 10) 30 +
      (if documents.length > 0 then 10 else 0) ≤ 100 := by
    split <;> omega
  refine ⟨h1, ?_, h3, ?_⟩
  · show min (rawScore documents (collect documents)) 100 = _
    unfold rawScore
    exact Nat.min_eq_left h1
  · unfold Dashboard.calculateComplianceScore
    by_cases h0 : documents.length = 0
    · simp only [h0, if_true]
    · simp only [h0, if_false]
      exact Nat.min_eq_left h3

/-- C26, as stated, fails: a single document whose `documentType` is the empty string
has one present `documentType` value, so the claimed dashboard score is
`0 + 10 + 10 = 20`, but the truthiness test of line 101 skips the empty string and the
code returns `10`. -/
theorem dashboard_present_types_counterexample :
    Dashboard.calculateComplianceScore [emptyTypeDocument] ≠
      min (15 * (frameworkNames [emptyTypeDocument]).toFinset.card) 60 +
        min (10 * (presentDocumentTypes [emptyTypeDocument]).toFinset.card) 30 + 10 := by
  decide

/-- C26, amended: the dashboard returns 0 for the empty list and otherwise
`min(15*f, 60) + min(10*t, 30) + 10`, with `f` the number of distinct framework
identifiers and `t` the number of distinct `documentType` values that are present and
not the empty string; so it is at least 10 for every non-empty list, and two non-empty
lists with the same frameworks and the same non-empty types score the same, whatever
their numbers of documents. -/
theorem dashboard_score_cases (documents : List Document) :
    (documents = [] → Dashboard.calculateComplianceScore documents = 0) ∧
    (documents ≠ [] →
      Dashboard.calculateComplianceScore documents =
        min (15 * (frameworkNames documents).toFinset.card) 60 +
          min (10 * ((presentDocumentTypes documents).filter
            (fun t => t ≠ "")).toFinset.card) 30 + 10 ∧
      10 ≤ Dashboard.calculateComplianceScore documents) ∧
    (∀ others : List Document, documents ≠ [] → others ≠ [] →
      (frameworkNames documents).toFinset = (frameworkNames others).toFinset →
      (nonEmptyDocumentTypes documents).toFinset = (nonEmptyDocumentTypes others).toFinset →
      Dashboard.calculateComplianceScore documents =
        Dashboard.calculateComplianceScore others) := by
  have hform : ∀ l : List Document, l ≠ [] →
      Dashboard.calculateComplianceScore l =
        min (15 * (frameworkNames l).toFinset.card) 60 +
          min (10 * (nonEmptyDocumentTypes l).toFinset.card) 30 + 10 := by
    intro l hl
    rw [dashboard_score_nonempty l hl, dashboard_foldl_fst, dashboard_foldl_snd,
      length_foldl_setAdd, length_foldl_setAdd]
    omega
  refine ⟨?_, ?_, ?_⟩
  · rintro rfl; rfl
  · intro hne
    have hfilter : (presentDocumentTypes documents).filter (fun t => t ≠ "") =
        nonEmptyDocumentTypes documents := by
      unfold presentDocumentTypes nonEmptyDocumentTypes
      clear hne
      induction documents with
      | nil => rfl
      | cons doc rest ih =>
        cases hd : doc.documentType with
        | none => simpa [List.filterMap_cons, hd, truthyString] using ih
        | some s =>
          by_cases hs : s = ""
          · simpa [List.filterMap_cons, hd, truthyString, hs] using ih
          · simpa [List.filterMap_cons, hd, truthyString, hs] using ih
    rw [hfilter, hform documents hne]
    exact ⟨rfl, Nat.le_add_left _ _⟩
  · intro others hne hne' hf ht
    rw [hform documents hne, hform others hne', hf, ht]

/-- A witness for the amended C26: the single-document example scores
`15 + 10 + 10 = 35` on the dashboard. -/
theorem dashboard_score_cases_witness :
    [exampleDocument] ≠ [] ∧
    Dashboard.calculateComplianceScore [exampleDocument] =
      min (15 * (frameworkNames [exampleDocument]).toFinset.card) 60 +
        min (10 * ((presentDocumentTypes [exampleDocument]).filter
          (fun t => t ≠ "")).toFinset.card) 30 + 10 ∧
    10 ≤ Dashboard.calculateComplianceScore [exampleDocument] :=
  ⟨by decide, (dashboard_score_cases [exampleDocument]).2.1 (by decide)⟩

/-! ## The coverage table as a function of its keys -/

theorem length_contributions (seen : List FrameworkAssociation) (k : String) :
    (contributions seen k).length = (seen.map (fun a => a.framework)).count k := by
  unfold contributions
  rw [List.length_map]
  induction seen with
  | nil => rfl
  | cons a rest ih =>
    by_cases h : a.framework = k
    · simp [List.filter_cons, h, ih]
    · simp [List.filter_cons, h, ih, List.count_cons]

/-- The coverage table is the image of the detected frameworks, in their order, under
the tally of all associations. -/
theorem coverage_eq_tally (documents : List Document) (fw : List String) :
    (analyzeCompliance documents fw).frameworkCoverage =
      (collect documents).detectedFrameworks.map
        (fun k => toCoverageEntry (tallyOf (associations documents) k)) := by
  obtain ⟨hkeys, hvals⟩ := collect_linked documents
  obtain ⟨-, -, htally⟩ := collect_tallied documents
  show coverageArray (collect documents) = _
  unfold coverageArray
  rw [← hkeys, List.map_map, List.map_map]
  apply List.map_congr_left
  intro kv hkv
  obtain ⟨hd, ht, ha⟩ := htally kv hkv
  have hname := hvals kv hkv
  have hv : kv.2 = tallyOf (associations documents) kv.1 := by
    cases hkv2 : kv.2 with
    | mk framework docs avg total =>
      rw [hkv2] at hd ht ha hname
      simp only at hd ht ha hname
      simp only [tallyOf, CoverageAcc.mk.injEq]
      refine ⟨hname, hd, ?_, ht⟩
      rw [ha, ht, hd]
  simp only [Function.comp, hv]

theorem detected_perm_dedup (documents : List Document) :
    List.Perm (collect documents).detectedFrameworks (frameworkNames documents).dedup := by
  rw [List.perm_ext_iff_of_nodup
    (by rw [collect_detected]; exact nodup_foldl_setAdd _ _ List.nodup_nil)
    (List.nodup_dedup _)]
  intro x
  rw [mem_collect_detected, List.mem_dedup]

/-- C27: for every list of documents the document counts of the coverage entries sum
to the number of associations over all documents, counted with multiplicity; an
entry's count is the number of associations naming its framework, and it exceeds the
number of documents for one document that names `CSRD` twice. -/
theorem coverage_counts_sum (documents : List Document) (availableFrameworks : List String) :
    ((analyzeCompliance documents availableFrameworks).frameworkCoverage.map
        (fun e => e.documents)).sum = (associations documents).length ∧
    (∀ e ∈ (analyzeCompliance documents availableFrameworks).frameworkCoverage,
      e.documents =
        ((associations documents).filter (fun a => a.framework = e.framework)).length) ∧
    (∃ e ∈ (analyzeCompliance [repeatedFrameworkDocument] availableFrameworks).frameworkCoverage,
      [repeatedFrameworkDocument].length < e.documents) := by
  refine ⟨?_, ?_, ?_⟩
  · rw [coverage_eq_tally, List.map_map]
    have hf : ((fun e : CoverageEntry => e.documents) ∘
        fun k => toCoverageEntry (tallyOf (associations documents) k)) =
        fun k => (frameworkNames documents).count k := by
      funext k
      exact length_contributions (associations documents) k
    rw [hf, ((detected_perm_dedup documents).map _).sum_eq,
      List.sum_map_count_dedup_eq_length]
    simp [frameworkNames]
  · intro e he
    obtain ⟨v, rfl, -, hd, -⟩ := mem_coverage documents availableFrameworks e he
    show v.documents =
      ((associations documents).filter (fun a => a.framework = v.framework)).length
    rw [hd]
    simp [contributions]
  · rw [coverage_eq_tally]
    refine ⟨toCoverageEntry (tallyOf (associations [repeatedFrameworkDocument]) "CSRD"), ?_, ?_⟩
    · have hk : (collect [repeatedFrameworkDocument]).detectedFrameworks = ["CSRD"] := by decide
      rw [hk]
      exact List.mem_singleton.2 rfl
    · show 1 < (contributions (associations [repeatedFrameworkDocument]) "CSRD").length
      rw [length_contributions]
      decide

/-! ## Permuting the documents -/

theorem associations_perm {ds1 ds2 : List Document} (h : List.Perm ds1 ds2) :
    List.Perm (associations ds1) (associations ds2) :=
  List.Perm.flatMap_right docAssociations h

theorem frameworkNames_perm {ds1 ds2 : List Document} (h : List.Perm ds1 ds2) :
    List.Perm (frameworkNames ds1) (frameworkNames ds2) :=
  (associations_perm h).map _

theorem nonEmptyDocumentTypes_perm {ds1 ds2 : List Document} (h : List.Perm ds1 ds2) :
    List.Perm (nonEmptyDocumentTypes ds1) (nonEmptyDocumentTypes ds2) :=
  List.Perm.filterMap _ h

theorem detect_congr (c1 c2 : Collected)
    (hf : ∀ x, x ∈ c1.detectedFrameworks ↔ x ∈ c2.detectedFrameworks)
    (ht : ∀ x, x ∈ c1.documentTypes ↔ x ∈ c2.documentTypes) :
    detect c1 = detect c2 := by
  have h1 : missingFrameworks c1 = missingFrameworks c2 := by
    unfold missingFrameworks
    apply List.filter_congr
    intro x _
    simp only [setHas, hf x]
  have h2 : missingDocTypes c1 = missingDocTypes c2 := by
    unfold missingDocTypes
    apply List.filter_congr
    intro x _
    simp only [setHas, ht x]
  apply Prod.ext
  · rw [detect_gaps, detect_gaps, h1, h2]
  · rw [detect_recommendations, detect_recommendations, h1, h2]

/-! ## How many gaps and recommendations -/

theorem mem_presentDocumentTypes (documents : List Document) (x : String) :
    x ∈ presentDocumentTypes documents ↔ ∃ doc ∈ documents, doc.documentType = some x := by
  unfold presentDocumentTypes
  simp only [List.mem_filterMap]

theorem missingFrameworks_eq (documents : List Document) :
    missingFrameworks (collect documents) =
      keyFrameworks.filter (fun F => decide (F ∉ frameworkNames documents)) := by
  unfold missingFrameworks
  apply List.filter_congr
  intro x _
  have := mem_collect_detected documents x
  by_cases hx : x ∈ frameworkNames documents
  · simp [setHas, this, hx]
  · simp [setHas, this, hx]

theorem missingDocTypes_eq (documents : List Document) :
    missingDocTypes (collect documents) =
      keyDocTypes.filter (fun T => decide (T ∉ presentDocumentTypes documents)) := by
  unfold missingDocTypes
  apply List.filter_congr
  intro x hxk
  have h1 : x ∈ (collect documents).documentTypes ↔ x ∈ presentDocumentTypes documents := by
    rw [mem_collect_documentTypes, mem_nonEmptyDocumentTypes, mem_presentDocumentTypes]
    exact ⟨fun h => h.2, fun h => ⟨ne_empty_of_mem_keyDocTypes hxk, h⟩⟩
  by_cases hx : x ∈ presentDocumentTypes documents
  · simp [setHas, h1, hx]
  · simp [setHas, h1, hx]

theorem length_detect (documents : List Document) :
    (detect (collect documents)).1.length = missingCount documents := by
  rw [detect_gaps, List.length_append, List.length_map, List.length_map,
    missingFrameworks_eq, missingDocTypes_eq]
  rfl

/-- C29: for every list of documents, with `k` the number of key frameworks carried
by no document plus the number of key document types held by no document, the result
has `min(5, k)` gaps and `min(4, k)` recommendations; the gaps are empty exactly when
all four key frameworks and all three key document types are present. -/
theorem gaps_count (documents : List Document) (availableFrameworks : List String) :
    (analyzeCompliance documents availableFrameworks).gaps.length =
      min 5 (missingCount documents) ∧
    (analyzeCompliance documents availableFrameworks).recommendations.length =
      min 4 (missingCount documents) ∧
    ((analyzeCompliance documents availableFrameworks).gaps = [] ↔
      (∀ F ∈ keyFrameworks, F ∈ frameworkNames documents) ∧
        ∀ T ∈ keyDocTypes, T ∈ presentDocumentTypes documents) := by
  have hg : (analyzeCompliance documents availableFrameworks).gaps.length =
      min 5 (missingCount documents) := by
    show ((detect (collect documents)).1.take 5).length = _
    rw [List.length_take, length_detect]
  refine ⟨hg, ?_, ?_⟩
  · show ((detect (collect documents)).2.take 4).length = _
    rw [List.length_take, detect_lengths, length_detect]
  · rw [← List.length_eq_zero, hg]
    have h0 : min 5 (missingCount documents) = 0 ↔ missingCount documents = 0 := by omega
    rw [h0]
    unfold missingCount
    rw [Nat.add_eq_zero_iff, List.length_eq_zero, List.length_eq_zero,
      List.filter_eq_nil_iff, List.filter_eq_nil_iff]
    simp only [decide_eq_true_eq, not_not]

/-! ## Upload-status polling -/

theorem runTimers_idle (fileId : Nat) (outcomes : Nat → Outcome) (fuel : Nat) (st : PollState)
    (h : st.pending = false) : runTimers fileId outcomes fuel st = st := by
  cases fuel with
  | zero => rfl
  | succ n => simp [runTimers, h]

theorem applyStatus_file (fileId : Nat) (status : String) (metadata : Option String)
    (files : List UploadedFile) :
    ∀ f ∈ applyStatus fileId status metadata files, f.id = fileId →
      f.status = status ∧ f.processed = decide (status = "completed") := by
  intro f hf hid
  unfold applyStatus at hf
  obtain ⟨g, -, rfl⟩ := List.mem_map.1 hf
  by_cases hg : g.id = fileId
  · simp [hg]
  · simp only [hg, if_false] at hid

theorem forceCompleted_file (fileId : Nat) (files : List UploadedFile) :
    ∀ f ∈ forceCompleted fileId files, f.id = fileId →
      f.status = "completed" ∧ f.processed = true := by
  intro f hf hid
  unfold forceCompleted at hf
  obtain ⟨g, -, rfl⟩ := List.mem_map.1 hf
  by_cases hg : g.id = fileId
  · simp [hg]
  · simp only [hg, if_false] at hid

theorem checkStatus_stops (fileId : Nat) (st : PollState) (o : Outcome)
    (h : o.stops = true) :
    ∃ status metadata, o = Outcome.ok status metadata ∧
      checkStatus fileId st o =
        { st with
          pending := false
          checks := st.checks + 1
          uploadedFiles := applyStatus fileId status metadata st.uploadedFiles } := by
  cases o with
  | ok status metadata =>
    refine ⟨status, metadata, rfl, ?_⟩
    have ht : isTerminal status = true := h
    simp [checkStatus, ht]
  | notOk => simp [Outcome.stops] at h
  | thrown => simp [Outcome.stops] at h

theorem checkStatus_continues (fileId : Nat) (st : PollState) (o : Outcome)
    (h : o.stops = false) :
    ∃ files, checkStatus fileId st o =
      retryOrGiveUp fileId
        { st with pending := false, checks := st.checks + 1, uploadedFiles := files } := by
  cases o with
  | ok status metadata =>
    have ht : isTerminal status = false := h
    exact ⟨applyStatus fileId status metadata st.uploadedFiles, by simp [checkStatus, ht]⟩
  | notOk => exact ⟨st.uploadedFiles, rfl⟩
  | thrown => exact ⟨st.uploadedFiles, rfl⟩

theorem runTimers_ends (fileId : Nat) (outcomes : Nat → Outcome) (fuel : Nat) :
    ∀ st : PollState, st.pending = true → st.forced = false → st.attempts = st.checks →
      st.checks < maxAttempts → maxAttempts ≤ fuel + st.checks →
      PollEnds fileId outcomes st.checks (runTimers fileId outcomes fuel st) := by
  induction fuel with
  | zero =>
    intro st _ _ _ hlt hfuel
    omega
  | succ n ih =>
    intro st hp hf ha hlt hfuel
    have hrun : runTimers fileId outcomes (n + 1) st =
        runTimers fileId outcomes n (checkStatus fileId st (outcomes st.checks)) := by
      simp [runTimers, hp]
    rw [hrun]
    cases hstop : (outcomes st.checks).stops with
    | true =>
      obtain ⟨status, metadata, ho, hcs⟩ := checkStatus_stops fileId st _ hstop
      rw [hcs, runTimers_idle _ _ _ _ rfl]
      refine ⟨rfl, Nat.succ_le_of_lt hlt, ?_, ?_⟩
      · intro k hk _ _ hfirst
        have hkeq : k = st.checks := by
          rcases Nat.lt_or_ge st.checks k with hlt' | hge
          · have := hfirst st.checks (Nat.le_refl _) hlt'
            rw [hstop] at this
            exact absurd this (by decide)
          · omega
        subst hkeq
        refine ⟨rfl, hf, ?_⟩
        intro status' metadata' ho' f hfm hid
        rw [ho] at ho'
        obtain ⟨rfl, rfl⟩ := Outcome.ok.inj ho'
        exact applyStatus_file fileId status metadata st.uploadedFiles f hfm hid
      · intro hnone
        have := hnone st.checks (Nat.le_refl _) hlt
        rw [hstop] at this
        exact absurd this (by decide)
    | false =>
      obtain ⟨files, hcs⟩ := checkStatus_continues fileId st _ hstop
      rw [hcs]
      by_cases hmore : st.attempts + 1 < maxAttempts
      · have hnext : retryOrGiveUp fileId
            { st with pending := false, checks := st.checks + 1, uploadedFiles := files } =
            { st with
              pending := true, checks := st.checks + 1, uploadedFiles := files
              attempts := st.attempts + 1 } := by
          simp [retryOrGiveUp, hmore]
        rw [hnext]
        have hrec := ih
          { st with
            pending := true, checks := st.checks + 1, uploadedFiles := files
            attempts := st.attempts + 1 }
          rfl hf (by simp [ha]) (by simp only; omega) (by simp only; omega)
        obtain ⟨h1, h2, h3, h4⟩ := hrec
        refine ⟨h1, h2, ?_, ?_⟩
        · intro k hk hk30 hks hfirst
          have hne : k ≠ st.checks := by
            intro he
            rw [he, hstop] at hks
            exact absurd hks (by decide)
          exact h3 k (by simp only; omega) hk30 hks
            (fun j hj hjk => hfirst j (by simp only at hj; omega) hjk)
        · intro hnone
          exact h4 (fun j hj hj30 => hnone j (by simp only at hj; omega) hj30)
      · have hlast : st.checks + 1 = maxAttempts := by omega
        have hnext : retryOrGiveUp fileId
            { st with pending := false, checks := st.checks + 1, uploadedFiles := files } =
            { st with
              pending := false, checks := st.checks + 1
              uploadedFiles := forceCompleted fileId files
              attempts := st.attempts + 1, forced := true } := by
          simp [retryOrGiveUp, hmore]
        rw [hnext, runTimers_idle _ _ _ _ rfl]
        refine ⟨rfl, Nat.le_of_eq hlast, ?_, ?_⟩
        · intro k hk hk30 hks _
          have hkeq : k = st.checks := by omega
          rw [hkeq, hstop] at hks
          exact absurd hks (by decide)
        · intro _
          exact ⟨hlast, rfl, forceCompleted_file fileId files⟩

/-- C24: the upload-status polling is a bounded retry loop. For every sequence of
status-check outcomes and every fuel of at least 30 timer firings the run ends with no
timer left and `checkStatus` has run at most 30 times; if check number `k < 30` is the
first to meet an OK response with status `completed` or `failed`, exactly `k + 1`
checks ran, no forced update happened and the file carries that status; if none of
the 30 checks meets such a response, 30 checks ran and the file was forced to status
`completed` with `processed = true`. -/
theorem polling_bounded (fileId : Nat) (outcomes : Nat → Outcome) (files : List UploadedFile)
    (fuel : Nat) (hfuel : 30 ≤ fuel) :
    (pollProcessingStatus fileId outcomes fuel files).pending = false ∧
    (pollProcessingStatus fileId outcomes fuel files).checks ≤ 30 ∧
    (∀ k, k < 30 → (outcomes k).stops = true → (∀ j, j < k → (outcomes j).stops = false) →
      (pollProcessingStatus fileId outcomes fuel files).checks = k + 1 ∧
      (pollProcessingStatus fileId outcomes fuel files).forced = false ∧
      ∀ status metadata, outcomes k = Outcome.ok status metadata →
        ∀ f ∈ (pollProcessingStatus fileId outcomes fuel files).uploadedFiles, f.id = fileId →
          f.status = status ∧ f.processed = decide (status = "completed")) ∧
    ((∀ j, j < 30 → (outcomes j).stops = false) →
      (pollProcessingStatus fileId outcomes fuel files).checks = 30 ∧
      (pollProcessingStatus fileId outcomes fuel files).forced = true ∧
      ∀ f ∈ (pollProcessingStatus fileId outcomes fuel files).uploadedFiles, f.id = fileId →
        f.status = "completed" ∧ f.processed = true) := by
  obtain ⟨h1, h2, h3, h4⟩ := runTimers_ends fileId outcomes fuel (pollStart files)
    rfl rfl rfl (show 0 < maxAttempts by decide)
    (by simpa [pollStart, maxAttempts] using hfuel)
  refine ⟨h1, h2, ?_, ?_⟩
  · intro k hk hks hfirst
    exact h3 k (Nat.zero_le _) hk hks (fun j _ hjk => hfirst j hjk)
  · intro hnone
    exact h4 (fun j _ hj => hnone j hj)

/-- A witness for C24: with 30 firings allowed and an environment whose third check
is the first to report `completed`, three checks run, nothing is forced, and the file
ends `completed` and processed. -/
theorem polling_bounded_witness :
    30 ≤ 30 ∧
    (pollProcessingStatus 7 completesAtThird 30 [processingFile]).pending = false ∧
    (pollProcessingStatus 7 completesAtThird 30 [processingFile]).checks = 2 + 1 ∧
    (pollProcessingStatus 7 completesAtThird 30 [processingFile]).forced = false :=
  have h := polling_bounded 7 completesAtThird [processingFile] 30 (Nat.le_refl 30)
  have hk := h.2.2.1 2 (by decide) (by decide) (by
    intro j hj
    have : j = 0 ∨ j = 1 := by omega
    rcases this with rfl | rfl <;> decide)
  ⟨Nat.le_refl 30, h.1, hk.1, hk.2.1⟩

/-! ## View routing -/

theorem routes_lookup_none (view : String) (h : view ∉ viewIds) : routes.lookup view = none := by
  simp only [viewIds, List.mem_cons, List.mem_singleton, List.not_mem_nil, or_false,
    not_or] at h
  obtain ⟨h1, h2, h3, h4, h5, h6⟩ := h
  have b1 : (view == "dashboard") = false := beq_eq_false_iff_ne.2 h1
  have b2 : (view == "chat") = false := beq_eq_false_iff_ne.2 h2
  have b3 : (view == "upload") = false := beq_eq_false_iff_ne.2 h3
  have b4 : (view == "insights") = false := beq_eq_false_iff_ne.2 h4
  have b5 : (view == "reports") = false := beq_eq_false_iff_ne.2 h5
  have b6 : (view == "settings") = false := beq_eq_false_iff_ne.2 h6
  simp only [routes, List.lookup, b1, b2, b3, b4, b5, b6]

/-- Outside the inputs of any caller: for the name of a member inherited from
`Object.prototype`, `routes[view]` is that member, a truthy value that is not a path,
and it is what `navigate` receives. -/
theorem setCurrentView_inherited (v : String) (h : v ∈ objectPrototypeKeys) :
    setCurrentView v = NavTarget.inherited v := by
  simp only [objectPrototypeKeys, List.mem_cons, List.mem_singleton, List.not_mem_nil,
    or_false] at h
  rcases h with rfl | rfl | rfl | rfl | rfl | rfl | rfl | rfl | rfl | rfl | rfl | rfl <;> decide

/-- C30: for each of the six view identifiers `v`, `setCurrentView(v)` navigates to a
path on which `getCurrentView` returns `v`; for every other view identifier (a string
that does not name a member inherited from `Object.prototype`), `setCurrentView`
navigates to `/`, on which `getCurrentView` returns `dashboard`; and every argument
that a call site passes to `setCurrentView` is one of the six identifiers. -/
theorem view_routing_round_trip :
    (∀ v ∈ viewIds, ∃ p, setCurrentView v = NavTarget.path p ∧ getCurrentView p = v) ∧
    (∀ v, v ∉ viewIds → v ∉ objectPrototypeKeys → setCurrentView v = NavTarget.path "/") ∧
    getCurrentView "/" = "dashboard" ∧
    (∀ v ∈ callerViews, v ∈ viewIds) := by
  refine ⟨?_, ?_, by decide, by decide⟩
  · intro v hv
    simp only [viewIds, List.mem_cons, List.mem_singleton, List.not_mem_nil, or_false] at hv
    rcases hv with rfl | rfl | rfl | rfl | rfl | rfl
    · exact ⟨"/", by decide, by decide⟩
    · exact ⟨"/chat", by decide, by decide⟩
    · exact ⟨"/upload", by decide, by decide⟩
    · exact ⟨"/insights", by decide, by decide⟩
    · exact ⟨"/reports", by decide, by decide⟩
    · exact ⟨"/settings", by decide, by decide⟩
  · intro v hv hproto
    unfold setCurrentView routesGet
    rw [routes_lookup_none v hv]
    simp [hproto, truthyTarget]

/-- A witness for C30: `reports` round-trips through `/reports`, and the unknown
identifier `profile` falls back to `/`. -/
theorem view_routing_round_trip_witness :
    "reports" ∈ viewIds ∧
    (∃ p, setCurrentView "reports" = NavTarget.path p ∧ getCurrentView p = "reports") ∧
    "profile" ∉ viewIds ∧ "profile" ∉ objectPrototypeKeys ∧
    setCurrentView "profile" = NavTarget.path "/" :=
  ⟨by decide, view_routing_round_trip.1 "reports" (by decide), by decide, by decide,
    view_routing_round_trip.2.1 "profile" (by decide) (by decide)⟩

/-! ## The analyzer over an explicit arithmetic: what does not depend on it -/

/-- With exact arithmetic the parametric analyzer is `analyzeCompliance`. -/
theorem analyzeComplianceIn_exact (documents : List Document) (fw : List String) :
    analyzeComplianceIn exactArithmetic documents fw = analyzeCompliance documents fw := rfl

theorem foldl_foldAssociationIn_sets (ar : Arithmetic) (fws : List FrameworkAssociation)
    (st st' : Collected) (hd : st.detectedFrameworks = st'.detectedFrameworks)
    (ht : st.documentTypes = st'.documentTypes) :
    (fws.foldl (foldAssociationIn ar) st).detectedFrameworks =
        (fws.foldl foldAssociation st').detectedFrameworks ∧
      (fws.foldl (foldAssociationIn ar) st).documentTypes =
        (fws.foldl foldAssociation st').documentTypes := by
  induction fws generalizing st st' with
  | nil => exact ⟨hd, ht⟩
  | cons fw rest ih =>
    simp only [List.foldl_cons]
    apply ih
    · show setAdd st.detectedFrameworks fw.framework = setAdd st'.detectedFrameworks fw.framework
      rw [hd]
    · exact ht

theorem foldDocumentIn_sets (ar : Arithmetic) (doc : Document) (st st' : Collected)
    (hd : st.detectedFrameworks = st'.detectedFrameworks)
    (ht : st.documentTypes = st'.documentTypes) :
    (foldDocumentIn ar st doc).detectedFrameworks = (foldDocument st' doc).detectedFrameworks ∧
      (foldDocumentIn ar st doc).documentTypes = (foldDocument st' doc).documentTypes := by
  unfold foldDocumentIn foldDocument
  cases doc.complianceFrameworks <;> cases truthyString doc.documentType
  · exact ⟨hd, ht⟩
  · exact ⟨hd, by show setAdd st.documentTypes _ = setAdd st'.documentTypes _; rw [ht]⟩
  · exact foldl_foldAssociationIn_sets ar _ _ _ hd ht
  · exact foldl_foldAssociationIn_sets ar _ _ _ hd
      (by show setAdd st.documentTypes _ = setAdd st'.documentTypes _; rw [ht])

theorem foldl_foldDocumentIn_sets (ar : Arithmetic) (documents : List Document)
    (st st' : Collected) (hd : st.detectedFrameworks = st'.detectedFrameworks)
    (ht : st.documentTypes = st'.documentTypes) :
    (documents.foldl (foldDocumentIn ar) st).detectedFrameworks =
        (documents.foldl foldDocument st').detectedFrameworks ∧
      (documents.foldl (foldDocumentIn ar) st).documentTypes =
        (documents.foldl foldDocument st').documentTypes := by
  induction documents generalizing st st' with
  | nil => exact ⟨hd, ht⟩
  | cons doc rest ih =>
    simp only [List.foldl_cons]
    obtain ⟨h1, h2⟩ := foldDocumentIn_sets ar doc st st' hd ht
    exact ih _ _ h1 h2

/-- The two sets built by the first loop do not depend on the arithmetic. -/
theorem collectIn_detected (ar : Arithmetic) (documents : List Document) :
    (collectIn ar documents).detectedFrameworks = (collect documents).detectedFrameworks :=
  (foldl_foldDocumentIn_sets ar documents Collected.empty Collected.empty rfl rfl).1

theorem collectIn_documentTypes (ar : Arithmetic) (documents : List Document) :
    (collectIn ar documents).documentTypes = (collect documents).documentTypes :=
  (foldl_foldDocumentIn_sets ar documents Collected.empty Collected.empty rfl rfl).2

theorem detect_collectIn (ar : Arithmetic) (documents : List Document) :
    detect (collectIn ar documents) = detect (collect documents) :=
  detect_congr _ _ (fun x => by rw [collectIn_detected]) (fun x => by rw [collectIn_documentTypes])

/-- Score, gaps and recommendations do not depend on the arithmetic: the analyzer
over any arithmetic returns those of `analyzeCompliance`. -/
theorem analyzeComplianceIn_agrees (ar : Arithmetic) (documents : List Document)
    (fw : List String) :
    (analyzeComplianceIn ar documents fw).overallScore =
      (analyzeCompliance documents fw).overallScore ∧
    (analyzeComplianceIn ar documents fw).gaps = (analyzeCompliance documents fw).gaps ∧
    (analyzeComplianceIn ar documents fw).recommendations =
      (analyzeCompliance documents fw).recommendations := by
  refine ⟨?_, ?_, ?_⟩
  · show min (rawScore documents (collectIn ar documents)) 100 =
      min (rawScore documents (collect documents)) 100
    unfold rawScore frameworkScore diversityScore
    rw [collectIn_detected, collectIn_documentTypes]
  · show (detect (collectIn ar documents)).1.take 5 = (detect (collect documents)).1.take 5
    rw [detect_collectIn]
  · show (detect (collectIn ar documents)).2.take 4 = (detect (collect documents)).2.take 4
    rw [detect_collectIn]

/-! ## The coverage map over an explicit arithmetic -/

theorem foldAssociationIn_linked (ar : Arithmetic) (st : Collected) (fw : FrameworkAssociation)
    (h : st.Linked) : (foldAssociationIn ar st fw).Linked := by
  obtain ⟨hkeys, hvals⟩ := h
  have hbump : ∀ v, (bumpCoverageIn ar fw v).framework = v.framework := fun _ => rfl
  unfold foldAssociationIn Collected.Linked
  by_cases hhas : mapHas st.frameworkCoverage fw.framework = true
  · have hin : fw.framework ∈ st.detectedFrameworks := hkeys ▸ (mapHas_iff _ _).1 hhas
    have hset : setHas st.detectedFrameworks fw.framework = true := (setHas_iff _ _).2 hin
    simp only [hhas, Bool.not_true, Bool.false_eq_true, if_false, mapModify_keys, setAdd, hset,
      if_true]
    exact ⟨hkeys, mapModify_values _ _ _ hbump hvals⟩
  · have hout : fw.framework ∉ st.detectedFrameworks :=
      fun hin => hhas ((mapHas_iff _ _).2 (hkeys ▸ hin))
    have hset : ¬ setHas st.detectedFrameworks fw.framework = true :=
      fun hs => hout ((setHas_iff _ _).1 hs)
    simp only [hhas, Bool.not_false, if_true, mapSet, if_false, Bool.false_eq_true,
      mapModify_keys, List.map_append, List.map_cons, List.map_nil, setAdd, hset, hkeys]
    refine ⟨trivial, mapModify_values _ _ _ hbump ?_⟩
    intro kv hkv
    rcases List.mem_append.1 hkv with hkv | hkv
    · exact hvals kv hkv
    · rw [List.mem_singleton.1 hkv]

theorem foldl_foldAssociationIn_linked (ar : Arithmetic) (fws : List FrameworkAssociation)
    (st : Collected) (h : st.Linked) : (fws.foldl (foldAssociationIn ar) st).Linked := by
  induction fws generalizing st with
  | nil => exact h
  | cons fw rest ih => exact ih _ (foldAssociationIn_linked ar st fw h)

theorem foldDocumentIn_linked (ar : Arithmetic) (st : Collected) (doc : Document)
    (h : st.Linked) : (foldDocumentIn ar st doc).Linked := by
  unfold foldDocumentIn
  cases doc.complianceFrameworks <;> cases truthyString doc.documentType <;>
    first
      | exact h
      | exact foldl_foldAssociationIn_linked ar _ _ h

theorem collectIn_linked (ar : Arithmetic) (documents : List Document) :
    (collectIn ar documents).Linked := by
  unfold collectIn
  have h0 : Collected.empty.Linked := ⟨rfl, fun kv hkv => by simp [Collected.empty] at hkv⟩
  generalize Collected.empty = st at h0
  induction documents generalizing st with
  | nil => exact h0
  | cons doc rest ih => exact ih _ (foldDocumentIn_linked ar st doc h0)

theorem talliedIn_bump (ar : Arithmetic) (m : List (String × CoverageAcc))
    (seen : List FrameworkAssociation) (fw : FrameworkAssociation) (h : TalliedIn ar m seen)
    (hk : fw.framework ∈ m.map Prod.fst) :
    TalliedIn ar (mapModify m fw.framework (bumpCoverageIn ar fw)) (seen ++ [fw]) := by
  obtain ⟨hnd, hseen, hvals⟩ := h
  refine ⟨by rw [mapModify_keys]; exact hnd, ?_, ?_⟩
  · intro a ha
    rw [mapModify_keys]
    rcases List.mem_append.1 ha with ha | ha
    · exact hseen a ha
    · rw [List.mem_singleton.1 ha]; exact hk
  · intro kv' hkv'
    obtain ⟨kv, hkv, rfl⟩ := mem_mapModify m _ _ hnd kv' hkv'
    obtain ⟨hd, ht, ha⟩ := hvals kv hkv
    by_cases hkey : kv.1 = fw.framework
    · simp only [hkey, if_true, contributions_append, bumpCoverageIn, List.length_append,
        List.length_singleton, List.foldl_append, List.foldl_cons, List.foldl_nil]
      rw [hkey] at hd ht
      exact ⟨by rw [hd], by rw [ht], fun _ => trivial⟩
    · have hkey' : ¬ fw.framework = kv.1 := fun e => hkey e.symm
      simp only [hkey, if_false, contributions_append, hkey', List.append_nil]
      exact ⟨hd, ht, ha⟩

theorem talliedIn_insert (ar : Arithmetic) (m : List (String × CoverageAcc))
    (seen : List FrameworkAssociation) (k : String) (h : TalliedIn ar m seen)
    (hk : k ∉ m.map Prod.fst) :
    TalliedIn ar
      (m ++ [(k, { framework := k, documents := 0, avgRelevance := 0, totalRelevance := 0 })])
      seen := by
  obtain ⟨hnd, hseen, hvals⟩ := h
  have hnone : contributions seen k = [] :=
    contributions_eq_nil seen k (fun a ha e => hk (e ▸ hseen a ha))
  refine ⟨?_, ?_, ?_⟩
  · rw [List.map_append]
    exact List.Nodup.append hnd (List.nodup_singleton k) (by simpa using hk)
  · intro a ha
    rw [List.map_append]
    exact List.mem_append_left _ (hseen a ha)
  · intro kv hkv
    rcases List.mem_append.1 hkv with hkv | hkv
    · exact hvals kv hkv
    · rw [List.mem_singleton.1 hkv]
      simp [hnone]

theorem foldAssociationIn_tallied (ar : Arithmetic) (st : Collected)
    (seen : List FrameworkAssociation) (fw : FrameworkAssociation)
    (h : TalliedIn ar st.frameworkCoverage seen) :
    TalliedIn ar (foldAssociationIn ar st fw).frameworkCoverage (seen ++ [fw]) := by
  unfold foldAssociationIn
  by_cases hhas : mapHas st.frameworkCoverage fw.framework = true
  · simp only [hhas, Bool.not_true, Bool.false_eq_true, if_false]
    exact talliedIn_bump ar _ _ _ h ((mapHas_iff _ _).1 hhas)
  · have hk : fw.framework ∉ st.frameworkCoverage.map Prod.fst :=
      fun hin => hhas ((mapHas_iff _ _).2 hin)
    simp only [hhas, Bool.not_false, if_true, mapSet, if_false, Bool.false_eq_true]
    apply talliedIn_bump ar _ _ _ (talliedIn_insert ar _ _ _ h hk)
    simp

theorem foldl_foldAssociationIn_tallied (ar : Arithmetic) (fws : List FrameworkAssociation)
    (st : Collected) (seen : List FrameworkAssociation)
    (h : TalliedIn ar st.frameworkCoverage seen) :
    TalliedIn ar (fws.foldl (foldAssociationIn ar) st).frameworkCoverage (seen ++ fws) := by
  induction fws generalizing st seen with
  | nil => simpa using h
  | cons fw rest ih =>
    have := ih (foldAssociationIn ar st fw) (seen ++ [fw])
      (foldAssociationIn_tallied ar st seen fw h)
    simpa using this

theorem foldDocumentIn_tallied (ar : Arithmetic) (st : Collected)
    (seen : List FrameworkAssociation) (doc : Document)
    (h : TalliedIn ar st.frameworkCoverage seen) :
    TalliedIn ar (foldDocumentIn ar st doc).frameworkCoverage (seen ++ docAssociations doc) := by
  unfold foldDocumentIn docAssociations
  cases doc.complianceFrameworks <;> cases truthyString doc.documentType
  · simpa using h
  · simpa using h
  · exact foldl_foldAssociationIn_tallied ar _ _ _ h
  · exact foldl_foldAssociationIn_tallied ar _ _ _ h

theorem foldl_foldDocumentIn_tallied (ar : Arithmetic) (documents : List Document)
    (st : Collected) (seen : List FrameworkAssociation)
    (h : TalliedIn ar st.frameworkCoverage seen) :
    TalliedIn ar (documents.foldl (foldDocumentIn ar) st).frameworkCoverage
      (seen ++ associations documents) := by
  induction documents generalizing st seen with
  | nil => simpa [associations] using h
  | cons doc rest ih =>
    have := ih (foldDocumentIn ar st doc) (seen ++ docAssociations doc)
      (foldDocumentIn_tallied ar st seen doc h)
    simpa [associations, List.flatMap_cons] using this

/-- After the loop, over any arithmetic, every value of the coverage map counts the
contributions of all associations of its key and holds their left-to-right sum. -/
theorem collectIn_tallied (ar : Arithmetic) (documents : List Document) :
    TalliedIn ar (collectIn ar documents).frameworkCoverage (associations documents) := by
  have h0 : TalliedIn ar Collected.empty.frameworkCoverage [] := by
    simp [TalliedIn, Collected.empty]
  simpa using foldl_foldDocumentIn_tallied ar documents Collected.empty [] h0

/-- Every entry of the coverage table over the arithmetic `ar` is the image of a map
value that names a framework of the documents, counts its contributions, holds their
left-to-right sum and the quotient of sum and count. -/
theorem mem_coverageIn (ar : Arithmetic) (documents : List Document) (fw : List String)
    (e : CoverageEntry) (he : e ∈ (analyzeComplianceIn ar documents fw).frameworkCoverage) :
    ∃ v : CoverageAcc, e = toCoverageEntryIn ar v ∧
      v.framework ∈ frameworkNames documents ∧
      v.documents = (contributions (associations documents) v.framework).length ∧
      v.totalRelevance = (contributions (associations documents) v.framework).foldl ar.add 0 ∧
      v.avgRelevance = ar.div v.totalRelevance (v.documents : ℚ) ∧
      1 ≤ v.documents := by
  have he' : e ∈ coverageArrayIn ar (collectIn ar documents) := he
  unfold coverageArrayIn at he'
  obtain ⟨v, hv, rfl⟩ := List.mem_map.1 he'
  obtain ⟨kv, hkv, rfl⟩ := List.mem_map.1 hv
  obtain ⟨hkeys, hvals⟩ := collectIn_linked ar documents
  obtain ⟨-, -, htally⟩ := collectIn_tallied ar documents
  obtain ⟨hd, ht, ha⟩ := htally kv hkv
  have hname : kv.2.framework = kv.1 := hvals kv hkv
  have hmem : kv.1 ∈ frameworkNames documents := by
    rw [← mem_collect_detected, ← collectIn_detected ar, ← hkeys]
    exact List.mem_map.2 ⟨kv, hkv, rfl⟩
  have h1 : 1 ≤ kv.2.documents := by rw [hd]; exact contributions_ne_nil _ _ hmem
  refine ⟨kv.2, rfl, ?_, ?_, ?_, ha h1, h1⟩
  · rw [hname]; exact hmem
  · rw [hname]; exact hd
  · rw [hname]; exact ht

/-! ## Average relevance as JavaScript computes it -/

/-- C12: for every list of documents and every entry of the coverage table, over any
arithmetic for `+` and `/` (that of JavaScript's doubles included), the document count
is at least 1, the average relevance is the total relevance divided by the document
count, and the total is the sum, taken from left to right in traversal order, of the
relevance contributions of all associations naming that framework, whose number is the
document count. -/
theorem coverage_average_of_all (ar : Arithmetic) (documents : List Document)
    (availableFrameworks : List String) (e : CoverageEntry)
    (he : e ∈ (analyzeComplianceIn ar documents availableFrameworks).frameworkCoverage) :
    1 ≤ e.documents ∧
    e.avgRelevance = ar.div e.totalRelevance (e.documents : ℚ) ∧
    e.totalRelevance =
      (contributions (associations documents) e.framework).foldl ar.add 0 ∧
    e.documents = (contributions (associations documents) e.framework).length := by
  obtain ⟨v, rfl, -, hd, ht, ha, h1⟩ := mem_coverageIn ar documents availableFrameworks e he
  exact ⟨h1, ha, ht, hd⟩

theorem coverage_twoScoresDocument :
    (analyzeComplianceIn doubleArithmetic [twoScoresDocument] []).frameworkCoverage =
      [twoScoresEntry] := by
  decide!

/-- A witness for C12, with JavaScript's doubles: one document naming `CSRD` with the
scores `0.1` and `0.2`. The entry's total is the rounded sum of both contributions,
`0.30000000000000004`, which is neither the latest contribution `0.2` nor the exact
sum `0.3`, and its average is that total divided by 2. -/
theorem coverage_average_of_all_witness :
    twoScoresEntry ∈
      (analyzeComplianceIn doubleArithmetic [twoScoresDocument] []).frameworkCoverage ∧
    (1 ≤ twoScoresEntry.documents ∧
      twoScoresEntry.avgRelevance =
        doubleArithmetic.div twoScoresEntry.totalRelevance (twoScoresEntry.documents : ℚ) ∧
      twoScoresEntry.totalRelevance =
        (contributions (associations [twoScoresDocument]) twoScoresEntry.framework).foldl
          doubleArithmetic.add 0 ∧
      twoScoresEntry.documents =
        (contributions (associations [twoScoresDocument]) twoScoresEntry.framework).length) ∧
    contributions (associations [twoScoresDocument]) "CSRD" =
      [roundDouble (1 / 10), roundDouble (2 / 10)] ∧
    twoScoresEntry.totalRelevance ≠ roundDouble (2 / 10) ∧
    twoScoresEntry.totalRelevance ≠ 3 / 10 :=
  have h : twoScoresEntry ∈
      (analyzeComplianceIn doubleArithmetic [twoScoresDocument] []).frameworkCoverage := by
    rw [coverage_twoScoresDocument]; exact List.mem_singleton.2 rfl
  ⟨h, coverage_average_of_all doubleArithmetic [twoScoresDocument] [] twoScoresEntry h,
    by decide!, by decide!, by decide!⟩

/-! ## Permuting the documents, as JavaScript computes -/

/-- Names, counts and completeness of the coverage table, over any arithmetic, are
those of the detected frameworks with the number of associations naming each. -/
theorem coverageIn_projection (ar : Arithmetic) (documents : List Document)
    (fw : List String) :
    (analyzeComplianceIn ar documents fw).frameworkCoverage.map
        (fun e => (e.framework, e.documents, e.completeness)) =
      (collect documents).detectedFrameworks.map
        (fun k => (k, (frameworkNames documents).count k,
          min ((frameworkNames documents).count k * 25) 100)) := by
  obtain ⟨hkeys, hvals⟩ := collectIn_linked ar documents
  obtain ⟨-, -, htally⟩ := collectIn_tallied ar documents
  show (coverageArrayIn ar (collectIn ar documents)).map _ = _
  unfold coverageArrayIn
  rw [← collectIn_detected ar, ← hkeys, List.map_map, List.map_map, List.map_map]
  apply List.map_congr_left
  intro kv hkv
  obtain ⟨hd, -, -⟩ := htally kv hkv
  have hname := hvals kv hkv
  have hcount : kv.2.documents = (frameworkNames documents).count kv.1 := by
    rw [hd, length_contributions]; rfl
  simp only [Function.comp, toCoverageEntryIn, hname, hcount]

theorem coverage_scoredDocuments :
    (analyzeComplianceIn doubleArithmetic scoredDocuments []).frameworkCoverage =
      [scoredEntry] := by
  decide!

theorem coverage_scoredDocumentsSwapped :
    (analyzeComplianceIn doubleArithmetic scoredDocumentsSwapped []).frameworkCoverage =
      [scoredEntrySwapped] := by
  decide!

/-- C28, as stated, fails: with JavaScript's doubles the three documents scoring
`0.1`, `0.2`, `0.9` for `CSRD` give an entry with average `0.4000000000000001` and
status `fair`, and the same documents in the order `0.1`, `0.9`, `0.2` give an entry
with average `0.39999999999999997` and status `poor`; the two coverage tables are not
permutations of each other. -/
theorem coverage_permutation_counterexample :
    List.Perm scoredDocuments scoredDocumentsSwapped ∧
    ¬ List.Perm (analyzeComplianceIn doubleArithmetic scoredDocuments []).frameworkCoverage
        (analyzeComplianceIn doubleArithmetic scoredDocumentsSwapped []).frameworkCoverage := by
  refine ⟨List.Perm.cons _ (List.Perm.swap _ _ _), ?_⟩
  rw [coverage_scoredDocuments, coverage_scoredDocumentsSwapped]
  intro h
  have heq : scoredEntry = scoredEntrySwapped := by
    have := List.perm_singleton.1 h
    exact (List.cons.inj this).1
  exact absurd heq (by decide!)

/-- C28, amended: for every list of documents and every permutation of it, over any
arithmetic (that of JavaScript's doubles included), `analyzeCompliance` returns the
same `overallScore`, the same gaps and the same recommendations, and the coverage
entries carry, up to order, the same framework names, document counts and
completeness values. -/
theorem permutation_keeps_counts (ar : Arithmetic) (ds1 ds2 : List Document)
    (availableFrameworks : List String) (h : List.Perm ds1 ds2) :
    (analyzeComplianceIn ar ds1 availableFrameworks).overallScore =
      (analyzeComplianceIn ar ds2 availableFrameworks).overallScore ∧
    (analyzeComplianceIn ar ds1 availableFrameworks).gaps =
      (analyzeComplianceIn ar ds2 availableFrameworks).gaps ∧
    (analyzeComplianceIn ar ds1 availableFrameworks).recommendations =
      (analyzeComplianceIn ar ds2 availableFrameworks).recommendations ∧
    List.Perm
      ((analyzeComplianceIn ar ds1 availableFrameworks).frameworkCoverage.map
        (fun e => (e.framework, e.documents, e.completeness)))
      ((analyzeComplianceIn ar ds2 availableFrameworks).frameworkCoverage.map
        (fun e => (e.framework, e.documents, e.completeness))) := by
  have hdet : detect (collect ds1) = detect (collect ds2) := by
    apply detect_congr
    · intro x
      rw [mem_collect_detected, mem_collect_detected]
      exact (frameworkNames_perm h).mem_iff
    · intro x
      rw [mem_collect_documentTypes, mem_collect_documentTypes]
      exact (nonEmptyDocumentTypes_perm h).mem_iff
  obtain ⟨hs1, hg1, hr1⟩ := analyzeComplianceIn_agrees ar ds1 availableFrameworks
  obtain ⟨hs2, hg2, hr2⟩ := analyzeComplianceIn_agrees ar ds2 availableFrameworks
  refine ⟨?_, ?_, ?_, ?_⟩
  · rw [hs1, hs2, overallScore_eq, overallScore_eq, h.length_eq,
      List.toFinset_eq_of_perm _ _ (frameworkNames_perm h),
      List.toFinset_eq_of_perm _ _ (nonEmptyDocumentTypes_perm h)]
  · rw [hg1, hg2]
    show (detect (collect ds1)).1.take 5 = (detect (collect ds2)).1.take 5
    rw [hdet]
  · rw [hr1, hr2]
    show (detect (collect ds1)).2.take 4 = (detect (collect ds2)).2.take 4
    rw [hdet]
  · rw [coverageIn_projection, coverageIn_projection]
    have hkeys : List.Perm (collect ds1).detectedFrameworks (collect ds2).detectedFrameworks :=
      ((detected_perm_dedup ds1).trans ((frameworkNames_perm h).dedup)).trans
        (detected_perm_dedup ds2).symm
    have hfun : (fun k => (k, (frameworkNames ds1).count k,
          min ((frameworkNames ds1).count k * 25) 100)) =
        fun k => (k, (frameworkNames ds2).count k,
          min ((frameworkNames ds2).count k * 25) 100) := by
      funext k
      rw [(frameworkNames_perm h).count_eq k]
    rw [hfun]
    exact hkeys.map _

/-- A witness for the amended C28, with JavaScript's doubles: the documents scoring
`0.1`, `0.2`, `0.9` and the same documents with the last two exchanged, an order that
changes the rounded total. -/
theorem permutation_keeps_counts_witness :
    List.Perm scoredDocuments scoredDocumentsSwapped ∧
    (analyzeComplianceIn doubleArithmetic scoredDocuments []).overallScore =
      (analyzeComplianceIn doubleArithmetic scoredDocumentsSwapped []).overallScore ∧
    (analyzeComplianceIn doubleArithmetic scoredDocuments []).gaps =
      (analyzeComplianceIn doubleArithmetic scoredDocumentsSwapped []).gaps ∧
    (analyzeComplianceIn doubleArithmetic scoredDocuments []).recommendations =
      (analyzeComplianceIn doubleArithmetic scoredDocumentsSwapped []).recommendations ∧
    List.Perm
      ((analyzeComplianceIn doubleArithmetic scoredDocuments []).frameworkCoverage.map
        (fun e => (e.framework, e.documents, e.completeness)))
      ((analyzeComplianceIn doubleArithmetic scoredDocumentsSwapped []).frameworkCoverage.map
        (fun e => (e.framework, e.documents, e.completeness))) :=
  ⟨List.Perm.cons _ (List.Perm.swap _ _ _),
    permutation_keeps_counts doubleArithmetic scoredDocuments scoredDocumentsSwapped []
      (List.Perm.cons _ (List.Perm.swap _ _ _))⟩

/-! ## Rounding to the nearest double never crosses a small integer -/

theorem roundHalfEven_le (n d N : Nat) (hd : 0 < d) (h : n ≤ N * d) : roundHalfEven n d ≤ N := by
  have hq : n / d ≤ N := Nat.div_le_of_le_mul (by rw [Nat.mul_comm]; exact h)
  have hdm : d * (n / d) + n % d = n := Nat.div_add_mod n d
  have hr : n % d < d := Nat.mod_lt _ hd
  unfold roundHalfEven
  simp only
  rcases Nat.lt_or_ge (n / d) N with hlt | hge
  · split
    · omega
    · split
      · omega
      · split <;> omega
  · have hqN : n / d = N := Nat.le_antisymm hq hge
    have hr0 : n % d = 0 := by
      rw [hqN, Nat.mul_comm] at hdm
      omega
    simp [hr0, hd, hqN]

theorem powLe_bound (e : Int) (n d k : Nat) (hd : 0 < d) (h : n ≤ k * d) (hk : k < 2 ^ 53)
    (hp : powLe e n d = true) : e ≤ 52 := by
  unfold powLe at hp
  by_cases he : 0 ≤ e
  · simp only [he, if_true, decide_eq_true_eq] at hp
    have h1 : d * 2 ^ e.toNat ≤ d * k := by rw [Nat.mul_comm d k]; exact hp.trans h
    have h2 : 2 ^ e.toNat ≤ k := Nat.le_of_mul_le_mul_left h1 hd
    have h3 : 2 ^ e.toNat < 2 ^ 53 := Nat.lt_of_le_of_lt h2 hk
    have h4 : e.toNat < 53 := (Nat.pow_lt_pow_iff_right (by norm_num)).1 h3
    omega
  · omega

theorem binade_le (n d k : Nat) (hd : 0 < d) (h : n ≤ k * d) (hk : k < 2 ^ 53) :
    binade n d ≤ 52 := by
  unfold binade
  simp only
  split
  · next hp => exact powLe_bound _ n d k hd h hk hp
  · split
    · next hp => exact powLe_bound _ n d k hd h hk hp
    · norm_num

theorem roundDouble_nonneg (x : ℚ) (hx : 0 ≤ x) : 0 ≤ roundDouble x := by
  unfold roundDouble
  by_cases h0 : x = 0
  · simp [h0]
  · have hneg : ¬ x < 0 := not_lt.2 hx
    simp only [h0, if_false, hneg]
    split
    · exact Nat.cast_nonneg _
    · exact div_nonneg (Nat.cast_nonneg _) (Nat.cast_nonneg _)

theorem roundDouble_le_nat (x : ℚ) (k : Nat) (hk : k < 2 ^ 53) (hx : x ≤ k) :
    roundDouble x ≤ k := by
  unfold roundDouble
  by_cases h0 : x = 0
  · simp [h0]
  · simp only [h0, if_false]
    by_cases hneg : x < 0
    · simp only [hneg, if_true]
      have hk0 : (0 : ℚ) ≤ k := Nat.cast_nonneg _
      split
      · have : (0 : ℚ) ≤ ((roundHalfEven x.num.natAbs (x.den * 2 ^ (max (binade x.num.natAbs x.den) (-1022) - 52).toNat) * 2 ^ (max (binade x.num.natAbs x.den) (-1022) - 52).toNat : Nat) : ℚ) := Nat.cast_nonneg _
        linarith
      · have : (0 : ℚ) ≤ (roundHalfEven (x.num.natAbs * 2 ^ (-(max (binade x.num.natAbs x.den) (-1022) - 52)).toNat) x.den : ℚ) / ((2 ^ (-(max (binade x.num.natAbs x.den) (-1022) - 52)).toNat : Nat) : ℚ) :=
          div_nonneg (Nat.cast_nonneg _) (Nat.cast_nonneg _)
        linarith
    · simp only [hneg, if_false]
      have hpos : 0 < x := lt_of_le_of_ne (not_lt.1 hneg) (Ne.symm h0)
      have hnum : 0 < x.num := Rat.num_pos.2 hpos
      have hd : 0 < x.den := x.den_pos
      have hnat : (x.num.natAbs : ℤ) = x.num := Int.natAbs_of_nonneg hnum.le
      have hxeq : (x.num.natAbs : ℚ) = x * x.den := by
        rw [Rat.mul_den_eq_num]
        exact (Int.cast_natCast x.num.natAbs).symm.trans (congrArg (fun z : ℤ => (z : ℚ)) hnat)
      have hle : x.num.natAbs ≤ k * x.den := by
        have : (x.num.natAbs : ℚ) ≤ (k : ℚ) * x.den := by
          rw [hxeq]
          exact mul_le_mul_of_nonneg_right hx (Nat.cast_nonneg _)
        exact_mod_cast this
      have hb := binade_le x.num.natAbs x.den k hd hle hk
      generalize binade x.num.natAbs x.den = b at hb
      generalize x.num.natAbs = n at hle
      generalize x.den = d at hle hd
      have hs : max b (-1022) - 52 ≤ 0 := by omega
      generalize max b (-1022) - 52 = s at hs
      by_cases hs0 : 0 ≤ s
      · have hsz : s = 0 := by omega
        subst hsz
        simp only [le_refl, if_true, Int.toNat_zero, pow_zero, Nat.mul_one]
        exact_mod_cast roundHalfEven_le n d k hd hle
      · simp only [hs0, if_false]
        have h2 : (0 : ℚ) < ((2 ^ (-s).toNat : Nat) : ℚ) := by positivity
        rw [div_le_iff₀ h2]
        have := roundHalfEven_le (n * 2 ^ (-s).toNat) d (k * 2 ^ (-s).toNat) hd (by
          calc n * 2 ^ (-s).toNat ≤ (k * d) * 2 ^ (-s).toNat := Nat.mul_le_mul_right _ hle
            _ = k * 2 ^ (-s).toNat * d := by ring)
        exact_mod_cast this

theorem foldl_double_range (l : List ℚ) (hl : ∀ x ∈ l, 0 ≤ x ∧ x ≤ 1) :
    ∀ (acc : ℚ) (j : Nat), 0 ≤ acc → acc ≤ j → j + l.length < 2 ^ 53 →
      0 ≤ l.foldl doubleArithmetic.add acc ∧
        l.foldl doubleArithmetic.add acc ≤ ((j + l.length : Nat) : ℚ) := by
  induction l with
  | nil =>
    intro acc j h0 hj _
    exact ⟨h0, by simpa using hj⟩
  | cons c rest ih =>
    intro acc j h0 hj hlen
    obtain ⟨hc0, hc1⟩ := hl c (List.mem_cons_self _ _)
    have hrest : ∀ x ∈ rest, 0 ≤ x ∧ x ≤ 1 := fun x hx => hl x (List.mem_cons_of_mem _ hx)
    rw [List.length_cons] at hlen
    have hstep0 : 0 ≤ doubleArithmetic.add acc c :=
      roundDouble_nonneg _ (add_nonneg h0 hc0)
    have hstep1 : doubleArithmetic.add acc c ≤ ((j + 1 : Nat) : ℚ) := by
      apply roundDouble_le_nat _ _ (by omega)
      push_cast
      linarith
    have := ih hrest (doubleArithmetic.add acc c) (j + 1) hstep0 hstep1 (by omega)
    rw [List.foldl_cons, List.length_cons]
    have hsum : j + 1 + rest.length = j + (rest.length + 1) := by omega
    rw [hsum] at this
    exact this

/-! ## Relevance scores are not clamped -/

theorem coverage_outOfRangeDocument :
    (analyzeComplianceIn doubleArithmetic [outOfRangeDocument] []).frameworkCoverage.map
        (fun e => (e.documents, e.totalRelevance, e.avgRelevance)) = [(1, 2, 2)] := by
  decide!

/-- C14, as stated, fails: nothing clamps a relevance score. With JavaScript's doubles
one association with score `2` contributes `2`, not the nearest bound `1`: the entry
has total relevance `2` and average relevance `2`, outside `[0,1]`. -/
theorem clamping_counterexample :
    (analyzeComplianceIn doubleArithmetic [outOfRangeDocument] []).frameworkCoverage.map
        (fun e => (e.documents, e.totalRelevance, e.avgRelevance)) = [(1, 2, 2)] ∧
    ¬ ∀ e ∈ (analyzeComplianceIn doubleArithmetic [outOfRangeDocument] []).frameworkCoverage,
        0 ≤ e.avgRelevance ∧ e.avgRelevance ≤ 1 := by
  refine ⟨coverage_outOfRangeDocument, ?_⟩
  intro hall
  have hmem : ((1 : Nat), (2 : ℚ), (2 : ℚ)) ∈
      (analyzeComplianceIn doubleArithmetic [outOfRangeDocument] []).frameworkCoverage.map
        (fun e => (e.documents, e.totalRelevance, e.avgRelevance)) := by
    rw [coverage_outOfRangeDocument]; exact List.mem_singleton.2 rfl
  obtain ⟨e, he, h2⟩ := List.mem_map.1 hmem
  have hle := (hall e he).2
  have havg : e.avgRelevance = 2 := (Prod.mk.inj (Prod.mk.inj h2).2).2
  rw [havg] at hle
  norm_num at hle

/-- C14, amended: the analyzer does not clamp. A relevance score that is present and
not zero contributes its own value, whatever its range; with JavaScript's doubles every
entry's total is the left-to-right sum of these contributions and its average that
total divided by the count. If every relevance score present in the documents lies in
`[0,1]` (and there are fewer than `2^53` associations), every entry's average relevance
lies in `[0,1]`. -/
theorem scores_not_clamped (documents : List Document) (availableFrameworks : List String) :
    (∀ r : ℚ, r ≠ 0 → relevanceOrDefault (some r) = r) ∧
    (∀ e ∈ (analyzeComplianceIn doubleArithmetic documents availableFrameworks).frameworkCoverage,
      e.totalRelevance =
        (contributions (associations documents) e.framework).foldl doubleArithmetic.add 0 ∧
      e.avgRelevance = doubleArithmetic.div e.totalRelevance (e.documents : ℚ)) ∧
    ((associations documents).length < 2 ^ 53 →
      (∀ a ∈ associations documents, ∀ x, a.relevanceScore = some x → 0 ≤ x ∧ x ≤ 1) →
      ∀ e ∈ (analyzeComplianceIn doubleArithmetic documents availableFrameworks).frameworkCoverage,
        0 ≤ e.avgRelevance ∧ e.avgRelevance ≤ 1) := by
  refine ⟨?_, ?_, ?_⟩
  · intro r hr
    simp [relevanceOrDefault, hr]
  · intro e he
    obtain ⟨v, rfl, -, -, ht, ha, -⟩ :=
      mem_coverageIn doubleArithmetic documents availableFrameworks e he
    exact ⟨ht, ha⟩
  · intro hlen hrange e he
    obtain ⟨v, rfl, -, hd, ht, ha, h1⟩ :=
      mem_coverageIn doubleArithmetic documents availableFrameworks e he
    have hcontrib : ∀ x ∈ contributions (associations documents) v.framework,
        0 ≤ x ∧ x ≤ 1 := by
      intro x hx
      unfold contributions at hx
      obtain ⟨a, ha', rfl⟩ := List.mem_map.1 hx
      exact relevanceOrDefault_range _ (hrange a (List.mem_of_mem_filter ha'))
    have hcount : (contributions (associations documents) v.framework).length ≤
        (associations documents).length := by
      unfold contributions
      rw [List.length_map]
      exact List.length_filter_le _ _
    have hsum := foldl_double_range _ hcontrib 0 0 (le_refl _) (by simp) (by omega)
    rw [Nat.zero_add, ← ht, ← hd] at hsum
    have hpos : (0 : ℚ) < (v.documents : ℚ) := by exact_mod_cast h1
    show 0 ≤ v.avgRelevance ∧ v.avgRelevance ≤ 1
    rw [ha]
    constructor
    · exact roundDouble_nonneg _ (div_nonneg hsum.1 hpos.le)
    · have h := roundDouble_le_nat (v.totalRelevance / (v.documents : ℚ)) 1 (by norm_num)
        (by
          rw [Nat.cast_one]
          exact (div_le_one hpos).2 hsum.2)
      simpa using h

/-- A witness for the amended C14, with JavaScript's doubles: the score `2` contributes
`2`, and the three documents scoring `0.1`, `0.2`, `0.9`, all within `[0,1]`, give the
average `0.4000000000000001`, within `[0,1]`. -/
theorem scores_not_clamped_witness :
    relevanceOrDefault (some 2) = 2 ∧
    (associations scoredDocuments).length < 2 ^ 53 ∧
    (∀ a ∈ associations scoredDocuments, ∀ x, a.relevanceScore = some x → 0 ≤ x ∧ x ≤ 1) ∧
    scoredEntry ∈ (analyzeComplianceIn doubleArithmetic scoredDocuments []).frameworkCoverage ∧
    0 ≤ scoredEntry.avgRelevance ∧ scoredEntry.avgRelevance ≤ 1 :=
  have hlen : (associations scoredDocuments).length < 2 ^ 53 := by decide
  have hrange : ∀ a ∈ associations scoredDocuments, ∀ x,
      a.relevanceScore = some x → 0 ≤ x ∧ x ≤ 1 := by
    have hall : ∀ a ∈ associations scoredDocuments,
        a.relevanceScore.all (fun x => decide (0 ≤ x ∧ x ≤ 1)) = true := by decide!
    intro a ha x hx
    have := hall a ha
    rw [hx] at this
    simpa using this
  have hmem : scoredEntry ∈
      (analyzeComplianceIn doubleArithmetic scoredDocuments []).frameworkCoverage := by
    rw [coverage_scoredDocuments]; exact List.mem_singleton.2 rfl
  ⟨(scores_not_clamped scoredDocuments []).1 2 (by norm_num), hlen, hrange, hmem,
    (scores_not_clamped scoredDocuments []).2.2 hlen hrange scoredEntry hmem⟩

end ComplianceInsights
